import Mathlib

/-!
Shallow embedding of `bokeh/crossfilter/models.py` (the faceting and
plot-dispatch engine of the crossfilter app) together with proofs about
its facet model, facet crossing, plot plugins, grid axis de-duplication
and the reactive filter pipeline.

Conventions of the embedding:
* a pandas `DataFrame` is a list of rows; a row is an association list
  from column names to cell values (`Value`, either a rational number or
  a string);
* machine floats of the source are modelled as rationals (`ℚ`);
* Python exceptions (`KeyError`, `ValueError`, ...) are modelled with
  `Except Err`;
* the source is Python 2 era code (it imports `six`); where Python 2
  semantics matter (comparison of an `int` with `None`) the embedding
  follows Python 2 and says so in a comment.
-/

/-- A cell value of the tabular dataset: numeric or string. -/
inductive Value where
  | num : ℚ → Value
  | str : String → Value
deriving DecidableEq, Repr, Inhabited

/-- A row of a DataFrame: association list from column names to values. -/
abbrev Row : Type := List (String × Value)

/-- A DataFrame: a list of rows. -/
abbrev DataFrame : Type := List Row

/-- `df[field]` for one row: the value of column `field` in row `r`
(first binding wins, as in a dict). -/
def rowGet : Row → String → Option Value
  | [], _ => none
  | (k, v) :: rest, f => if k = f then some v else rowGet rest f

/-- The numeric value of column `field` in row `r`, when it is numeric. -/
def rowRat (r : Row) (field : String) : Option ℚ :=
  match rowGet r field with
  | some (Value.num q) => some q
  | _ => none

/-- The column `df[field]` as a list of values (rows lacking the column
are skipped; in pandas every row has every column, so the theorems put
the corresponding hypothesis where it matters). -/
def colValues (df : DataFrame) (field : String) : List Value :=
  (df : List Row).filterMap (fun r => rowGet r field)

/-- The column `df[field]` restricted to its numeric values. -/
def colRats (df : DataFrame) (field : String) : List ℚ :=
  (df : List Row).filterMap (fun r => rowRat r field)

/-!  ### Facets (`DiscreteFacet`, `ContinuousFacet`)

`DiscreteFacet` pairs a field with a unique value; `ContinuousFacet`
additionally carries a pair of bin bounds `(low, high)`, each optional
(`None` in Python).  The `label` / `_value` of a facet is only used for
titles, never for filtering.  -/

/-- A facet: either `DiscreteFacet(field, value)` or
`ContinuousFacet(field, value, bins)` from the source. -/
inductive Facet where
  | discrete (field : String) (value : Value)
  | continuous (field : String) (value : Value) (bins : Option ℚ × Option ℚ)
deriving DecidableEq, Repr, Inhabited

/-- Row predicate of `DiscreteFacet.filter`: `df[df[self.field] == self._value]`. -/
def discretePred (field : String) (value : Value) (r : Row) : Bool :=
  rowGet r field == some value

/-- Row predicate for `df[df[self.field] > low]` of `ContinuousFacet.filter`. -/
def gtPred (field : String) (low : ℚ) (r : Row) : Bool :=
  match rowRat r field with
  | some q => decide (low < q)
  | none => false

/-- Row predicate for `df[df[self.field] <= high]` of `ContinuousFacet.filter`. -/
def lePred (field : String) (high : ℚ) (r : Row) : Bool :=
  match rowRat r field with
  | some q => decide (q ≤ high)
  | none => false

/-- `Facet.filter`, the row-wise predicate application of
`DiscreteFacet.filter` / `ContinuousFacet.filter`: equality on the field
for a discrete facet; for a continuous facet `> bins[0]` (when present)
followed by `<= bins[1]` (when present), exactly as the two successive
`df = df[...]` statements of the source. -/
def Facet.filter : Facet → DataFrame → DataFrame
  | Facet.discrete field value, df => (df : List Row).filter (discretePred field value)
  | Facet.continuous field _ bins, df =>
      let df1 : List Row := match bins.1 with
        | some low => (df : List Row).filter (gtPred field low)
        | none => df
      match bins.2 with
      | some high => df1.filter (lePred field high)
      | none => df1

/-- The conjunction predicate a facet filters by. -/
def Facet.pred : Facet → Row → Bool
  | Facet.discrete field value, r => discretePred field value r
  | Facet.continuous field _ bins, r =>
      (match bins.1 with
        | some low => gtPred field low r
        | none => true)
      && (match bins.2 with
        | some high => lePred field high r
        | none => true)

theorem Facet.filter_eq_filter_pred (f : Facet) (df : DataFrame) :
    f.filter df = df.filter f.pred := by
  cases f with
  | discrete field value => rfl
  | continuous field value bins =>
      obtain ⟨lo, hi⟩ := bins
      cases lo with
      | none =>
          cases hi with
          | none =>
              simp only [Facet.filter]
              exact Eq.symm (List.filter_eq_self.mpr (fun r _ => by simp [Facet.pred]))
          | some hi =>
              simp only [Facet.filter]
              exact List.filter_congr (fun r _ => by simp [Facet.pred])
      | some lo =>
          cases hi with
          | none =>
              simp only [Facet.filter]
              exact List.filter_congr (fun r _ => by simp [Facet.pred])
          | some hi =>
              simp only [Facet.filter, List.filter_filter]
              exact List.filter_congr (fun r _ => by simp [Facet.pred, Bool.and_comm])

/-- `CrossFilter.facet_data`: applies each facet's filter in turn
(`for f in facets: df = f.filter(df)`). -/
def facet_data (facets : List Facet) (df : DataFrame) : DataFrame :=
  facets.foldl (fun d f => f.filter d) df

/-- The data-preparation part of `CrossFilter.make_single_plot`: when a
`df` is provided it is facet-filtered once, and then — because the
`if facet:` branch runs as well — a second time with the same facets.
Python's `facet=None` is embedded as the empty facet list (both are
falsy in the `if facet:` test, and `df` is only ever provided together
with a facet list). -/
def make_single_plot_df (filtered : DataFrame) (df? : Option DataFrame)
    (facet : List Facet) : DataFrame :=
  let df : DataFrame := match df? with
    | none => filtered
    | some d => facet_data facet d
  if facet.isEmpty then df else facet_data facet df

/-!  ### Facet filters as predicate filters, and idempotence  -/

/-- Conjunction of the predicates of a facet list (the predicate
`facet_data` effectively filters by). -/
def facetsPred (fs : List Facet) (r : Row) : Bool :=
  fs.all (fun f => f.pred r)

theorem filter_self_idem {α : Type} (p : α → Bool) (l : List α) :
    (l.filter p).filter p = l.filter p := by
  simp only [List.filter_filter]
  exact List.filter_congr (fun a _ => by cases h : p a <;> simp [h])

theorem facet_data_cons (f : Facet) (fs : List Facet) (df : DataFrame) :
    facet_data (f :: fs) df = facet_data fs (f.filter df) := rfl

theorem facet_data_eq_filter (fs : List Facet) (df : DataFrame) :
    facet_data fs df = df.filter (facetsPred fs) := by
  induction fs generalizing df with
  | nil =>
      simp only [facet_data, List.foldl_nil]
      exact Eq.symm (List.filter_eq_self.mpr (fun r _ => by simp [facetsPred]))
  | cons f fs ih =>
      rw [facet_data_cons, ih, Facet.filter_eq_filter_pred]
      simp only [List.filter_filter]
      exact List.filter_congr (fun r _ => by
        cases h : f.pred r <;> simp [facetsPred, h])

/-- C9: every facet's filter is idempotent — for every `DiscreteFacet`
or `ContinuousFacet` `f` and every dataset `df`,
`f.filter(f.filter(df)) = f.filter(df)`; consequently the repeated
application of the same facet list inside `make_single_plot` (which
facet-filters a dataframe that was already filtered by the same facets)
yields exactly the same subset as a single application. -/
theorem c9_facet_filter_idempotent :
    (∀ (f : Facet) (df : DataFrame), f.filter (f.filter df) = f.filter df) ∧
    (∀ (facets : List Facet) (df : DataFrame),
        facet_data facets (facet_data facets df) = facet_data facets df) ∧
    (∀ (filtered d : DataFrame) (facets : List Facet),
        make_single_plot_df filtered (some d) facets = facet_data facets d) := by
  have hfd : ∀ (facets : List Facet) (df : DataFrame),
      facet_data facets (facet_data facets df) = facet_data facets df := by
    intro facets df
    simp only [facet_data_eq_filter]
    exact filter_self_idem _ _
  refine ⟨?_, hfd, ?_⟩
  · intro f df
    simp only [Facet.filter_eq_filter_pred]
    exact filter_self_idem _ _
  · intro filtered d facets
    simp only [make_single_plot_df]
    cases h : facets.isEmpty with
    | true =>
        simp only [if_pos rfl]
        rw [List.isEmpty_iff] at h
        subst h
        rfl
    | false =>
        simp only [Bool.false_eq_true, if_false]
        exact hfd facets d

/-!  ### `np.unique` and the discrete branch of `make_facets`  -/

/-- Ordering used to model `np.unique`'s sort on an object column.
Numbers compare by value, strings lexicographically; under Python 2
numbers sort before strings.  (No claim depends on the order itself.) -/
def vleB : Value → Value → Bool
  | Value.num a, Value.num b => decide (a ≤ b)
  | Value.str a, Value.str b => decide (a ≤ b)
  | Value.num _, Value.str _ => true
  | Value.str _, Value.num _ => false

/-- `vleB` as a relation, for `List.insertionSort`. -/
def vle (a b : Value) : Prop := vleB a b = true

instance : DecidableRel vle := fun a b =>
  inferInstanceAs (Decidable (vleB a b = true))

/-- `np.unique(values)`: sorted unique values of an object column. -/
def uniqueSorted (vs : List Value) : List Value :=
  (List.insertionSort vle vs).dedup

theorem mem_uniqueSorted (vs : List Value) (v : Value) :
    v ∈ uniqueSorted vs ↔ v ∈ vs := by
  unfold uniqueSorted
  rw [List.mem_dedup]
  exact (List.perm_insertionSort vle vs).mem_iff

theorem nodup_uniqueSorted (vs : List Value) : (uniqueSorted vs).Nodup :=
  List.nodup_dedup _

/-- The discrete branch of `CrossFilter.make_facets`:
`[DiscreteFacet(field, val) for val in np.unique(self.df[field].values)]`. -/
def make_facets_discrete (field : String) (df : DataFrame) : List Facet :=
  (uniqueSorted (colValues df field)).map (Facet.discrete field)

theorem mem_discrete_filter (field : String) (v : Value) (df : DataFrame)
    (r : Row) :
    r ∈ (Facet.discrete field v).filter df ↔
      r ∈ df ∧ rowGet r field = some v := by
  simp [Facet.filter, List.mem_filter, discretePred]

/-- C3: for every dataset and any single Discrete facet column, the
facets built for that column (one `DiscreteFacet` per unique value,
filtering by equality on the field) partition the dataset: the union of
`facet.filter(df)` over all facets of the column equals `df`, and the
filtered subsets of any two distinct facets have empty intersection. -/
theorem c3_discrete_facets_partition (df : DataFrame) (field : String)
    (hfield : ∀ r ∈ df, (rowGet r field).isSome) :
    (∀ r : Row, r ∈ df ↔
        ∃ f ∈ make_facets_discrete field df, r ∈ f.filter df) ∧
    (∀ f ∈ make_facets_discrete field df,
       ∀ g ∈ make_facets_discrete field df,
         f ≠ g → ∀ r : Row, r ∈ f.filter df → r ∉ g.filter df) := by
  constructor
  · intro r
    constructor
    · intro hr
      obtain ⟨v, hv⟩ := Option.isSome_iff_exists.mp (hfield r hr)
      refine ⟨Facet.discrete field v, ?_, ?_⟩
      · refine List.mem_map_of_mem _ ?_
        rw [mem_uniqueSorted]
        exact List.mem_filterMap.mpr ⟨r, hr, hv⟩
      · exact (mem_discrete_filter field v df r).mpr ⟨hr, hv⟩
    · rintro ⟨f, hf, hrf⟩
      obtain ⟨v, _, rfl⟩ := List.mem_map.mp hf
      exact ((mem_discrete_filter field v df r).mp hrf).1
  · intro f hf g hg hfg r hrf hrg
    obtain ⟨v, _, rfl⟩ := List.mem_map.mp hf
    obtain ⟨w, _, rfl⟩ := List.mem_map.mp hg
    have hv := ((mem_discrete_filter field v df r).mp hrf).2
    have hw := ((mem_discrete_filter field w df r).mp hrg).2
    apply hfg
    rw [hv] at hw
    injection hw with h
    rw [h]

/-- Concrete dataset for the C3 witness: one discrete column `c` with
values `A`, `B`, `A`. -/
def dfC3 : DataFrame :=
  [[("c", Value.str "A")], [("c", Value.str "B")], [("c", Value.str "A")]]

theorem c3_discrete_facets_partition_witness :
    (∀ r ∈ dfC3, (rowGet r "c").isSome) ∧
    ((∀ r : Row, r ∈ dfC3 ↔
        ∃ f ∈ make_facets_discrete "c" dfC3, r ∈ f.filter dfC3) ∧
     (∀ f ∈ make_facets_discrete "c" dfC3,
        ∀ g ∈ make_facets_discrete "c" dfC3,
          f ≠ g → ∀ r : Row, r ∈ f.filter dfC3 → r ∉ g.filter dfC3)) :=
  ⟨by decide, c3_discrete_facets_partition dfC3 "c" (by decide)⟩

/-!  ### Facet crossing and `make_facets`  -/

/-- Modelled from the spec: `cross` from `crossfilter/plotting.py` is
not under `src/`.  Per the spec it is the Cartesian-product fold step:
"for each existing prefix and each new Facet of that column, emit
`prefix + [facet]`". -/
def cross (start : List (List Facet)) (facets : List Facet) :
    List (List Facet) :=
  match start with
  | [] => []
  | p :: rest => facets.map (fun f => p ++ [f]) ++ cross rest facets

theorem mem_cross (A : List (List Facet)) (B : List Facet)
    (c : List Facet) :
    c ∈ cross A B ↔ ∃ p ∈ A, ∃ f ∈ B, c = p ++ [f] := by
  induction A with
  | nil => simp [cross]
  | cons p rest ih =>
      simp only [cross, List.mem_append, List.mem_map, ih, List.mem_cons]
      constructor
      · rintro (⟨f, hf, rfl⟩ | ⟨p', hp', f, hf, rfl⟩)
        · exact ⟨p, Or.inl rfl, f, hf, rfl⟩
        · exact ⟨p', Or.inr hp', f, hf, rfl⟩
      · rintro ⟨p', hp' | hp', f, hf, rfl⟩
        · exact Or.inl ⟨f, hf, by rw [hp']⟩
        · exact Or.inr ⟨p', hp', f, hf, rfl⟩

theorem length_cross (A : List (List Facet)) (B : List Facet) :
    (cross A B).length = A.length * B.length := by
  induction A with
  | nil => simp [cross]
  | cons p rest ih =>
      simp [cross, ih, Nat.succ_mul, Nat.add_comm]

theorem append_singleton_inj {p q : List Facet} {f g : Facet}
    (h : p ++ [f] = q ++ [g]) : p = q ∧ f = g := by
  have hl : ([f] : List Facet).length = ([g] : List Facet).length := rfl
  obtain ⟨h1, h2⟩ := List.append_inj' h hl
  exact ⟨h1, by injection h2⟩

theorem nodup_cross (A : List (List Facet)) (B : List Facet)
    (hA : A.Nodup) (hB : B.Nodup) : (cross A B).Nodup := by
  induction A with
  | nil => simp [cross]
  | cons p rest ih =>
      rw [List.nodup_cons] at hA
      simp only [cross]
      refine List.Nodup.append ?_ (ih hA.2) ?_
      · exact hB.map (fun a b hab => (append_singleton_inj hab).2)
      · intro c hc1 hc2
        obtain ⟨f, _, rfl⟩ := List.mem_map.mp hc1
        obtain ⟨p', hp', f', _, heq⟩ := (mem_cross rest B _).mp hc2
        obtain ⟨rfl, -⟩ := append_singleton_inj heq
        exact hA.1 hp'

/-- Python exceptions raised by the embedded code paths. -/
inductive Err where
  | keyError
  | valueError
  | indexError
  | attributeError
deriving DecidableEq, Repr

/-- Floor of a nonnegative rational as a natural number (used for the
interpolation index of a quantile position, which is always ≥ 0). -/
def natFloor (x : ℚ) : ℕ := x.num.toNat / x.den

/-- Sort a list of rationals ascending (pandas sorts the column before
taking quantiles). -/
def ratSort (xs : List ℚ) : List ℚ := List.insertionSort (· ≤ ·) xs

/-- Linear-interpolation quantile of a sorted nonempty list, as
`np.percentile` / `pandas` compute it: position `q * (n - 1)`,
interpolate between the neighbouring order statistics. -/
def quantileSorted (ys : List ℚ) (q : ℚ) : ℚ :=
  let n := ys.length
  let pos : ℚ := q * ((n : ℚ) - 1)
  let i := natFloor pos
  let lo := ys.getD i 0
  let hi := ys.getD (i + 1) lo
  lo + (pos - (i : ℚ)) * (hi - lo)

/-- Linear-interpolation quantile of a list of rationals. -/
def quantile (xs : List ℚ) (q : ℚ) : ℚ := quantileSorted (ratSort xs) q

/-- The bin edges returned by `pd.qcut(column, 4, retbins=True)`: the
quantiles of the column at `0, 1/4, 1/2, 3/4, 1`. -/
def qcutEdges (xs : List ℚ) : List ℚ :=
  [quantile xs 0, quantile xs (1/4), quantile xs (1/2),
   quantile xs (3/4), quantile xs 1]

/-- `bins = [[bins[idx], bins[idx+1]] for idx in range(len(bins)-1)]`:
consecutive pairs of the edge list. -/
def consecPairs : List ℚ → List (Option ℚ × Option ℚ)
  | a :: b :: rest => (some a, some b) :: consecPairs (b :: rest)
  | _ => []

/-- `bins[0][0] = None`: clear the lower bound of the first bin. -/
def clearFirstLow : List (Option ℚ × Option ℚ) → List (Option ℚ × Option ℚ)
  | [] => []
  | (_, hi) :: rest => (none, hi) :: rest

/-- `[ContinuousFacet(field, value, bin) for bin, value in zip(bins, cats)]`.
The pandas categorical interval labels (the facet values, used only in
titles, never for filtering) are modelled as the opaque strings
`"bin0" .. "bin3"`. -/
def labeledFacets (field : String) : Nat → List (Option ℚ × Option ℚ) → List Facet
  | _, [] => []
  | k, b :: bs =>
      Facet.continuous field (Value.str ("bin" ++ toString k)) b ::
        labeledFacets field (k + 1) bs

/-- The continuous branch of `CrossFilter.make_facets`: quantile-bin the
column into 4 bins with `pd.qcut(self.df[field], 4, retbins=True)`,
clear the first bin's lower bound, and build one `ContinuousFacet` per
bin.  `qcut` raises `ValueError` on an empty column and when the bin
edges are not unique ("Bin edges must be unique"). -/
def make_facets_continuous (field : String) (df : DataFrame) :
    Except Err (List Facet) :=
  let xs := colRats df field
  if xs.isEmpty then Except.error Err.valueError
  else
    let edges := qcutEdges xs
    if edges.Nodup then
      Except.ok (labeledFacets field 0 (clearFirstLow (consecPairs edges)))
    else Except.error Err.valueError

/-- A column descriptor, as produced by `CrossFilter.set_metadata`:
a name and a type tag (`"DiscreteColumn"`, `"ContinuousColumn"`,
`"TimeColumn"`).  The summary statistics play no role in the claims. -/
structure ColDesc where
  name : String
  type : String
deriving DecidableEq, Repr

/-- `CrossFilter.column_descriptor_dict()[name]`. -/
def lookupDesc (cols : List ColDesc) (name : String) : Option ColDesc :=
  cols.find? (fun d => d.name == name)

/-- The loop body of `CrossFilter.make_facets`: starting from the given
accumulator, cross in the facets of each remaining column
(`all_facets = cross(all_facets, field_facets)`). -/
def make_facets_loop (cols : List ColDesc) (df : DataFrame) :
    List String → List (List Facet) → Except Err (List (List Facet))
  | [], acc => Except.ok acc
  | field :: rest, acc =>
      match lookupDesc cols field with
      | none => Except.error Err.keyError
      | some meta =>
          if meta.type = "DiscreteColumn" then
            make_facets_loop cols df rest
              (cross acc (make_facets_discrete field df))
          else
            match make_facets_continuous field df with
            | Except.error e => Except.error e
            | Except.ok fs => make_facets_loop cols df rest (cross acc fs)

/-- `CrossFilter.make_facets` for one dimension, given the field list of
that dimension (`facet_x`, `facet_y` or `facet_tab`): the Cartesian fold
`all_facets = [[]]; for field in facets: all_facets = cross(...)`. -/
def make_facets (cols : List ColDesc) (df : DataFrame)
    (fields : List String) : Except Err (List (List Facet)) :=
  make_facets_loop cols df fields [[]]

/-- C6: the facet cross step is a Cartesian-product fold: `make_facets`
starts from the singleton list containing the empty combination, and for
any lists `A` (of combinations) and `B` (of facets) with no internal
duplicates, `cross(A, B)` has exactly `|A| * |B|` elements, each the
concatenation of one `A`-prefix and one `B`-facet, with no duplicate
combinations. -/
theorem c6_cross_cartesian_product (A : List (List Facet))
    (B : List Facet) (hA : A.Nodup) (hB : B.Nodup) :
    (∀ (cols : List ColDesc) (df : DataFrame),
        make_facets cols df [] = Except.ok [[]]) ∧
    (cross A B).length = A.length * B.length ∧
    (∀ c ∈ cross A B, ∃ p ∈ A, ∃ f ∈ B, c = p ++ [f]) ∧
    (cross A B).Nodup :=
  ⟨fun _ _ => rfl, length_cross A B,
   fun c hc => (mem_cross A B c).mp hc, nodup_cross A B hA hB⟩

/-- Concrete inputs for the C6 witness. -/
def crossA6 : List (List Facet) :=
  [[], [Facet.discrete "a" (Value.str "x")]]

/-- Concrete facet list for the C6 witness. -/
def crossB6 : List Facet :=
  [Facet.discrete "b" (Value.num 1), Facet.discrete "b" (Value.num 2)]

theorem c6_cross_cartesian_product_witness :
    crossA6.Nodup ∧ crossB6.Nodup ∧
    ((∀ (cols : List ColDesc) (df : DataFrame),
        make_facets cols df [] = Except.ok [[]]) ∧
     (cross crossA6 crossB6).length = crossA6.length * crossB6.length ∧
     (∀ c ∈ cross crossA6 crossB6,
        ∃ p ∈ crossA6, ∃ f ∈ crossB6, c = p ++ [f]) ∧
     (cross crossA6 crossB6).Nodup) :=
  ⟨by decide, by decide,
   c6_cross_cartesian_product crossA6 crossB6 (by decide) (by decide)⟩

/-!  ### Quantile lemmas for C2  -/

theorem natFloor_zero : natFloor 0 = 0 := rfl

theorem natFloor_natCast (m : ℕ) : natFloor (m : ℚ) = m := by
  unfold natFloor
  simp [Rat.num_natCast, Rat.den_natCast]

theorem quantileSorted_zero (ys : List ℚ) :
    quantileSorted ys 0 = ys.getD 0 0 := by
  simp [quantileSorted, natFloor_zero]

theorem quantileSorted_one (ys : List ℚ) (h : ys ≠ []) :
    quantileSorted ys 1 = ys.getD (ys.length - 1) 0 := by
  have hn : 1 ≤ ys.length := List.length_pos.mpr h
  have hpos : (1 : ℚ) * ((ys.length : ℚ) - 1) = ((ys.length - 1 : ℕ) : ℚ) := by
    push_cast [Nat.cast_sub hn]
    ring
  have hfloor : natFloor ((ys.length - 1 : ℕ) : ℚ) = ys.length - 1 :=
    natFloor_natCast _
  have hout : ys.length ≤ ys.length - 1 + 1 := by omega
  simp only [quantileSorted, hpos, hfloor, List.getD_eq_default ys _ hout]
  ring

theorem sorted_getD_zero_le (ys : List ℚ) (hs : List.Sorted (· ≤ ·) ys)
    (y : ℚ) (hy : y ∈ ys) : ys.getD 0 0 ≤ y := by
  cases ys with
  | nil => cases hy
  | cons a t =>
      rcases List.mem_cons.mp hy with rfl | hyt
      · exact le_refl _
      · exact (List.sorted_cons.mp hs).1 y hyt

theorem le_sorted_getD_last (ys : List ℚ) (hs : List.Sorted (· ≤ ·) ys)
    (y : ℚ) (hy : y ∈ ys) : y ≤ ys.getD (ys.length - 1) 0 := by
  induction ys with
  | nil => cases hy
  | cons a t ih =>
      cases t with
      | nil =>
          rcases List.mem_cons.mp hy with rfl | hyt
          · exact le_refl _
          · cases hyt
      | cons b t2 =>
          have hlen : (a :: b :: t2).length - 1 = (b :: t2).length - 1 + 1 := by
            simp
          rw [hlen, List.getD_cons_succ]
          rcases List.mem_cons.mp hy with rfl | hyt
          · have hmem : (b :: t2).getD ((b :: t2).length - 1) 0 ∈ b :: t2 := by
              rw [List.getD_eq_getElem _ _ (by simp)]
              exact List.getElem_mem _
            exact (List.sorted_cons.mp hs).1 _ hmem
          · exact ih (List.sorted_cons.mp hs).2 hyt

theorem rowRat_eq_some (r : Row) (field : String) (q : ℚ) :
    rowRat r field = some q ↔ rowGet r field = some (Value.num q) := by
  unfold rowRat
  cases h : rowGet r field with
  | none => simp
  | some v => cases v <;> simp_all

/-- All values of the column belong to the closed quantile range: every
value is at most the `q = 1` quantile, and the `q = 0` quantile is at
most every value. -/
theorem mem_le_quantile_one (xs : List ℚ) (h : xs ≠ []) (x : ℚ)
    (hx : x ∈ xs) : x ≤ quantile xs 1 := by
  have hperm : (ratSort xs).Perm xs := List.perm_insertionSort _ xs
  have hsorted : List.Sorted (· ≤ ·) (ratSort xs) :=
    List.sorted_insertionSort _ xs
  have hne : ratSort xs ≠ [] := by
    intro hcon
    have hl := hperm.length_eq
    rw [hcon] at hl
    exact h (List.eq_nil_of_length_eq_zero hl.symm)
  rw [quantile, quantileSorted_one _ hne]
  exact le_sorted_getD_last (ratSort xs) hsorted x (hperm.mem_iff.mpr hx)

theorem quantile_zero_le_mem (xs : List ℚ) (x : ℚ) (hx : x ∈ xs) :
    quantile xs 0 ≤ x := by
  have hperm : (ratSort xs).Perm xs := List.perm_insertionSort _ xs
  have hsorted : List.Sorted (· ≤ ·) (ratSort xs) :=
    List.sorted_insertionSort _ xs
  rw [quantile, quantileSorted_zero]
  exact sorted_getD_zero_le (ratSort xs) hsorted x (hperm.mem_iff.mpr hx)

/-- The `q = 0` quantile is itself a value of a nonempty column. -/
theorem quantile_zero_mem (xs : List ℚ) (h : xs ≠ []) :
    quantile xs 0 ∈ xs := by
  have hperm : (ratSort xs).Perm xs := List.perm_insertionSort _ xs
  have hlen : 0 < (ratSort xs).length := by
    rw [hperm.length_eq]
    exact List.length_pos.mpr h
  rw [quantile, quantileSorted_zero]
  refine hperm.mem_iff.mp ?_
  rw [List.getD_eq_getElem _ _ hlen]
  exact List.getElem_mem _

/-!  ### Membership in continuous facet filters  -/

theorem mem_colRats (df : DataFrame) (field : String) (q : ℚ) :
    q ∈ colRats df field ↔ ∃ r ∈ df, rowGet r field = some (Value.num q) := by
  unfold colRats
  rw [List.mem_filterMap]
  constructor
  · rintro ⟨r, hr, hq⟩
    exact ⟨r, hr, (rowRat_eq_some r field q).mp hq⟩
  · rintro ⟨r, hr, hq⟩
    exact ⟨r, hr, (rowRat_eq_some r field q).mpr hq⟩

theorem lePred_iff (r : Row) (field : String) (q high : ℚ)
    (hq : rowGet r field = some (Value.num q)) :
    lePred field high r = true ↔ q ≤ high := by
  simp [lePred, rowRat, hq]

theorem gtPred_iff (r : Row) (field : String) (q low : ℚ)
    (hq : rowGet r field = some (Value.num q)) :
    gtPred field low r = true ↔ low < q := by
  simp [gtPred, rowRat, hq]

theorem mem_cont_filter_first (field : String) (L : Value) (high : ℚ)
    (df : DataFrame) (r : Row) :
    r ∈ (Facet.continuous field L (none, some high)).filter df ↔
      r ∈ df ∧ lePred field high r = true := by
  simp [Facet.filter, List.mem_filter]

theorem mem_cont_filter_mid (field : String) (L : Value) (low high : ℚ)
    (df : DataFrame) (r : Row) :
    r ∈ (Facet.continuous field L (some low, some high)).filter df ↔
      r ∈ df ∧ gtPred field low r = true ∧ lePred field high r = true := by
  simp only [Facet.filter, List.mem_filter, and_assoc]

theorem mem_of_mem_facet_filter (f : Facet) (df : DataFrame) (r : Row)
    (h : r ∈ f.filter df) : r ∈ df := by
  rw [Facet.filter_eq_filter_pred] at h
  exact (List.mem_filter.mp h).1

/-- C2 (amended): for every dataset and every Continuous facet column
(of numeric values) whose five `qcut` bin edges — the
linear-interpolation quantiles at `0, 1/4, 1/2, 3/4, 1` — are pairwise
distinct (having at least 4 distinct values is necessary but *not*
sufficient for this; `pd.qcut` raises "Bin edges must be unique"
otherwise), `make_facets` produces exactly 4 quantile-bin facets in
ascending bin order, the first of which has no lower bound; each facet's
filter keeps exactly the rows with value strictly greater than the lower
bound (when present) and less than or equal to the upper bound, so the
four facets' filtered subsets are pairwise disjoint, jointly cover every
row of the dataset, and the row holding the dataset minimum is accepted
by the first facet. -/
theorem c2_continuous_quantile_facets (df : DataFrame) (field : String)
    (hvals : ∀ r ∈ df, ∃ q : ℚ, rowGet r field = some (Value.num q))
    (hne : df ≠ [])
    (hchain : List.Chain' (· < ·) (qcutEdges (colRats df field))) :
    ∃ (L0 L1 L2 L3 : Value) (e1 e2 e3 e4 : ℚ),
      make_facets_continuous field df =
        Except.ok [Facet.continuous field L0 (none, some e1),
                   Facet.continuous field L1 (some e1, some e2),
                   Facet.continuous field L2 (some e2, some e3),
                   Facet.continuous field L3 (some e3, some e4)] ∧
      e1 < e2 ∧ e2 < e3 ∧ e3 < e4 ∧
      (∀ r ∈ df, ∀ q : ℚ, rowGet r field = some (Value.num q) →
        ((r ∈ (Facet.continuous field L0 (none, some e1)).filter df ↔ q ≤ e1) ∧
         (r ∈ (Facet.continuous field L1 (some e1, some e2)).filter df ↔
            e1 < q ∧ q ≤ e2) ∧
         (r ∈ (Facet.continuous field L2 (some e2, some e3)).filter df ↔
            e2 < q ∧ q ≤ e3) ∧
         (r ∈ (Facet.continuous field L3 (some e3, some e4)).filter df ↔
            e3 < q ∧ q ≤ e4))) ∧
      (∀ f ∈ [Facet.continuous field L0 (none, some e1),
              Facet.continuous field L1 (some e1, some e2),
              Facet.continuous field L2 (some e2, some e3),
              Facet.continuous field L3 (some e3, some e4)],
       ∀ g ∈ [Facet.continuous field L0 (none, some e1),
              Facet.continuous field L1 (some e1, some e2),
              Facet.continuous field L2 (some e2, some e3),
              Facet.continuous field L3 (some e3, some e4)],
         f ≠ g → ∀ r : Row, r ∈ f.filter df → r ∉ g.filter df) ∧
      (∀ r ∈ df, ∃ f ∈ [Facet.continuous field L0 (none, some e1),
                        Facet.continuous field L1 (some e1, some e2),
                        Facet.continuous field L2 (some e2, some e3),
                        Facet.continuous field L3 (some e3, some e4)],
          r ∈ f.filter df) ∧
      (∀ r ∈ df, ∀ q : ℚ, rowGet r field = some (Value.num q) →
        (∀ r2 ∈ df, ∀ q2 : ℚ, rowGet r2 field = some (Value.num q2) → q ≤ q2) →
        r ∈ (Facet.continuous field L0 (none, some e1)).filter df) := by
  have hxne : colRats df field ≠ [] := by
    cases df with
    | nil => exact absurd rfl hne
    | cons r0 rest =>
        obtain ⟨q0, hq0⟩ := hvals r0 (List.mem_cons_self r0 rest)
        have : q0 ∈ colRats (r0 :: rest) field :=
          (mem_colRats _ field q0).mpr ⟨r0, List.mem_cons_self r0 rest, hq0⟩
        exact List.ne_nil_of_mem this
  have hEdges : qcutEdges (colRats df field) =
      [quantile (colRats df field) 0, quantile (colRats df field) (1/4),
       quantile (colRats df field) (1/2), quantile (colRats df field) (3/4),
       quantile (colRats df field) 1] := rfl
  set e0 := quantile (colRats df field) 0 with he0
  set e1 := quantile (colRats df field) (1/4) with he1
  set e2 := quantile (colRats df field) (1/2) with he2
  set e3 := quantile (colRats df field) (3/4) with he3
  set e4 := quantile (colRats df field) 1 with he4
  have hnodup : (qcutEdges (colRats df field)).Nodup :=
    (List.chain'_iff_pairwise.mp hchain).imp (fun h => ne_of_lt h)
  rw [hEdges] at hchain
  simp only [List.chain'_cons, List.chain'_singleton, and_true] at hchain
  obtain ⟨h01, h12, h23, h34⟩ := hchain
  have hxe : (colRats df field).isEmpty = false := by
    cases hh : (colRats df field).isEmpty with
    | false => rfl
    | true => exact absurd (List.isEmpty_iff.mp hh) hxne
  have hok : make_facets_continuous field df =
      Except.ok [Facet.continuous field (Value.str ("bin" ++ toString 0)) (none, some e1),
                 Facet.continuous field (Value.str ("bin" ++ toString 1)) (some e1, some e2),
                 Facet.continuous field (Value.str ("bin" ++ toString 2)) (some e2, some e3),
                 Facet.continuous field (Value.str ("bin" ++ toString 3)) (some e3, some e4)] := by
    simp only [make_facets_continuous, hxe, Bool.false_eq_true, if_false,
      if_pos hnodup]
    rfl
  refine ⟨Value.str ("bin" ++ toString 0), Value.str ("bin" ++ toString 1),
    Value.str ("bin" ++ toString 2), Value.str ("bin" ++ toString 3),
    e1, e2, e3, e4, hok, h12, h23, h34, ?_, ?_, ?_, ?_⟩
  · -- filter semantics per facet
    intro r hr q hq
    refine ⟨?_, ?_, ?_, ?_⟩
    · rw [mem_cont_filter_first, lePred_iff r field q e1 hq]
      simp [hr]
    · rw [mem_cont_filter_mid, gtPred_iff r field q e1 hq,
        lePred_iff r field q e2 hq]
      simp [hr]
    · rw [mem_cont_filter_mid, gtPred_iff r field q e2 hq,
        lePred_iff r field q e3 hq]
      simp [hr]
    · rw [mem_cont_filter_mid, gtPred_iff r field q e3 hq,
        lePred_iff r field q e4 hq]
      simp [hr]
  · -- pairwise disjoint
    intro f hf g hg hfg r hrf hrg
    have hrdf : r ∈ df := mem_of_mem_facet_filter f df r hrf
    obtain ⟨q, hq⟩ := hvals r hrdf
    have hm0 : r ∈ (Facet.continuous field
        (Value.str ("bin" ++ toString 0)) (none, some e1)).filter df ↔ q ≤ e1 := by
      rw [mem_cont_filter_first, lePred_iff r field q e1 hq]
      simp [hrdf]
    have hm1 : r ∈ (Facet.continuous field
        (Value.str ("bin" ++ toString 1)) (some e1, some e2)).filter df ↔
        e1 < q ∧ q ≤ e2 := by
      rw [mem_cont_filter_mid, gtPred_iff r field q e1 hq,
        lePred_iff r field q e2 hq]
      simp [hrdf]
    have hm2 : r ∈ (Facet.continuous field
        (Value.str ("bin" ++ toString 2)) (some e2, some e3)).filter df ↔
        e2 < q ∧ q ≤ e3 := by
      rw [mem_cont_filter_mid, gtPred_iff r field q e2 hq,
        lePred_iff r field q e3 hq]
      simp [hrdf]
    have hm3 : r ∈ (Facet.continuous field
        (Value.str ("bin" ++ toString 3)) (some e3, some e4)).filter df ↔
        e3 < q ∧ q ≤ e4 := by
      rw [mem_cont_filter_mid, gtPred_iff r field q e3 hq,
        lePred_iff r field q e4 hq]
      simp [hrdf]
    simp only [List.mem_cons, List.not_mem_nil, or_false] at hf hg
    rcases hf with rfl | rfl | rfl | rfl <;> rcases hg with rfl | rfl | rfl | rfl <;>
      first
        | exact hfg rfl
        | (rw [hm0] at hrf; rw [hm1] at hrg; exact absurd hrf (not_le.mpr hrg.1))
        | (rw [hm0] at hrf; rw [hm2] at hrg; exact absurd hrf (not_le.mpr (lt_trans h12 hrg.1)))
        | (rw [hm0] at hrf; rw [hm3] at hrg; exact absurd hrf (not_le.mpr (lt_trans (lt_trans h12 h23) hrg.1)))
        | (rw [hm1] at hrf; rw [hm0] at hrg; exact absurd hrg (not_le.mpr hrf.1))
        | (rw [hm1] at hrf; rw [hm2] at hrg; exact absurd hrf.2 (not_le.mpr hrg.1))
        | (rw [hm1] at hrf; rw [hm3] at hrg; exact absurd hrf.2 (not_le.mpr (lt_trans h23 hrg.1)))
        | (rw [hm2] at hrf; rw [hm0] at hrg; exact absurd hrg (not_le.mpr (lt_trans h12 hrf.1)))
        | (rw [hm2] at hrf; rw [hm1] at hrg; exact absurd hrg.2 (not_le.mpr hrf.1))
        | (rw [hm2] at hrf; rw [hm3] at hrg; exact absurd hrf.2 (not_le.mpr hrg.1))
        | (rw [hm3] at hrf; rw [hm0] at hrg; exact absurd hrg (not_le.mpr (lt_trans (lt_trans h12 h23) hrf.1)))
        | (rw [hm3] at hrf; rw [hm1] at hrg; exact absurd hrg.2 (not_le.mpr (lt_trans h23 hrf.1)))
        | (rw [hm3] at hrf; rw [hm2] at hrg; exact absurd hrg.2 (not_le.mpr hrf.1))
  · -- joint cover
    intro r hr
    obtain ⟨q, hq⟩ := hvals r hr
    have hqmem : q ∈ colRats df field :=
      (mem_colRats df field q).mpr ⟨r, hr, hq⟩
    have hq4 : q ≤ e4 := mem_le_quantile_one (colRats df field) hxne q hqmem
    rcases le_or_lt q e1 with hle1 | hgt1
    · refine ⟨_, List.mem_cons_self _ _, ?_⟩
      rw [mem_cont_filter_first, lePred_iff r field q e1 hq]
      exact ⟨hr, hle1⟩
    · rcases le_or_lt q e2 with hle2 | hgt2
      · refine ⟨_, List.mem_cons_of_mem _ (List.mem_cons_self _ _), ?_⟩
        rw [mem_cont_filter_mid, gtPred_iff r field q e1 hq,
          lePred_iff r field q e2 hq]
        exact ⟨hr, hgt1, hle2⟩
      · rcases le_or_lt q e3 with hle3 | hgt3
        · refine ⟨_, List.mem_cons_of_mem _
            (List.mem_cons_of_mem _ (List.mem_cons_self _ _)), ?_⟩
          rw [mem_cont_filter_mid, gtPred_iff r field q e2 hq,
            lePred_iff r field q e3 hq]
          exact ⟨hr, hgt2, hle3⟩
        · refine ⟨_, List.mem_cons_of_mem _ (List.mem_cons_of_mem _
            (List.mem_cons_of_mem _ (List.mem_cons_self _ _))), ?_⟩
          rw [mem_cont_filter_mid, gtPred_iff r field q e3 hq,
            lePred_iff r field q e4 hq]
          exact ⟨hr, hgt3, hq4⟩
  · -- the dataset minimum lands in the first (unbounded-below) facet
    intro r hr q hq hmin
    have he0mem : e0 ∈ colRats df field :=
      quantile_zero_mem (colRats df field) hxne
    obtain ⟨r2, hr2, hq2⟩ := (mem_colRats df field e0).mp he0mem
    have hqe0 : q ≤ e0 := hmin r2 hr2 e0 hq2
    have hqe1 : q ≤ e1 := le_of_lt (lt_of_le_of_lt hqe0 h01)
    rw [mem_cont_filter_first, lePred_iff r field q e1 hq]
    exact ⟨hr, hqe1⟩

/-- Counterexample dataset for C2 as stated: the column `v` holds
`1,1,1,1,1,2,3,4` — four distinct values, yet the 0- and 1/4-quantile
edges coincide (both are 1), so `pd.qcut` raises
`ValueError: Bin edges must be unique` and no facets are produced. -/
def dfBadC2 : DataFrame :=
  [[("v", Value.num 1)], [("v", Value.num 1)], [("v", Value.num 1)],
   [("v", Value.num 1)], [("v", Value.num 1)], [("v", Value.num 2)],
   [("v", Value.num 3)], [("v", Value.num 4)]]


/-!  ### Concrete evaluation helpers for quantiles  -/

theorem natFloor_eval (x : ℚ) (n : ℤ) (d i : ℕ) (hn : x.num = n)
    (hd : x.den = d) (h : n.toNat / d = i) : natFloor x = i := by
  rw [natFloor, hn, hd, h]

theorem quantileSorted_eval (ys : List ℚ) (q pos : ℚ) (i : ℕ) (v : ℚ)
    (hpos : q * ((ys.length : ℚ) - 1) = pos)
    (hfloor : natFloor pos = i)
    (hval : ys.getD i 0 +
        (pos - (i : ℚ)) * (ys.getD (i + 1) (ys.getD i 0) - ys.getD i 0) = v) :
    quantileSorted ys q = v := by
  simp only [quantileSorted, hpos, hfloor]
  exact hval

theorem c2_continuous_quantile_facets_counterexample :
    make_facets_continuous "v" dfBadC2 = Except.error Err.valueError ∧
    (uniqueSorted (colValues dfBadC2 "v")).length = 4 := by
  constructor
  · have hsort : ratSort (colRats dfBadC2 "v") = [1, 1, 1, 1, 1, 2, 3, 4] := rfl
    have h0 : quantile (colRats dfBadC2 "v") 0 = 1 := by
      rw [quantile, hsort, quantileSorted_zero]
      rfl
    have h1 : quantile (colRats dfBadC2 "v") (1/4) = 1 := by
      rw [quantile, hsort]
      refine quantileSorted_eval _ _ (7/4) 1 1 ?_ ?_ ?_
      · norm_num
      · exact natFloor_eval (7/4) 7 4 1 (by norm_num) (by norm_num) rfl
      · norm_num
    have hnd : ¬ (qcutEdges (colRats dfBadC2 "v")).Nodup := by
      intro hnd
      simp only [qcutEdges] at hnd
      rw [h0, h1] at hnd
      exact (List.nodup_cons.mp hnd).1 (List.mem_cons_self _ _)
    have hxe : (colRats dfBadC2 "v").isEmpty = false := rfl
    simp only [make_facets_continuous, hxe, Bool.false_eq_true, if_false]
    rw [if_neg hnd]
  · decide

/-- Concrete dataset for the C2 witness: the column `v` holds `1 .. 8`,
whose quantile edges `1, 11/4, 9/2, 25/4, 8` are strictly increasing. -/
def dfQ8 : DataFrame :=
  [[("v", Value.num 1)], [("v", Value.num 2)], [("v", Value.num 3)],
   [("v", Value.num 4)], [("v", Value.num 5)], [("v", Value.num 6)],
   [("v", Value.num 7)], [("v", Value.num 8)]]

theorem dfQ8_chain :
    List.Chain' (· < ·) (qcutEdges (colRats dfQ8 "v")) := by
  have hsort : ratSort (colRats dfQ8 "v") = [1, 2, 3, 4, 5, 6, 7, 8] := rfl
  have h0 : quantile (colRats dfQ8 "v") 0 = 1 := by
    rw [quantile, hsort, quantileSorted_zero]
    rfl
  have h1 : quantile (colRats dfQ8 "v") (1/4) = 11/4 := by
    rw [quantile, hsort]
    refine quantileSorted_eval _ _ (7/4) 1 (11/4) ?_ ?_ ?_
    · norm_num
    · exact natFloor_eval (7/4) 7 4 1 (by norm_num) (by norm_num) rfl
    · norm_num
  have h2 : quantile (colRats dfQ8 "v") (1/2) = 9/2 := by
    rw [quantile, hsort]
    refine quantileSorted_eval _ _ (7/2) 3 (9/2) ?_ ?_ ?_
    · norm_num
    · exact natFloor_eval (7/2) 7 2 3 (by norm_num) (by norm_num) rfl
    · norm_num
  have h3 : quantile (colRats dfQ8 "v") (3/4) = 25/4 := by
    rw [quantile, hsort]
    refine quantileSorted_eval _ _ (21/4) 5 (25/4) ?_ ?_ ?_
    · norm_num
    · exact natFloor_eval (21/4) 21 4 5 (by norm_num) (by norm_num) rfl
    · norm_num
  have h4 : quantile (colRats dfQ8 "v") 1 = 8 := by
    rw [quantile, hsort, quantileSorted_one _ (by simp)]
    rfl
  simp only [qcutEdges]
  rw [h0, h1, h2, h3, h4]
  simp only [List.chain'_cons, List.chain'_singleton, and_true]
  norm_num

theorem dfQ8_vals :
    ∀ r ∈ dfQ8, ∃ q : ℚ, rowGet r "v" = some (Value.num q) := by
  intro r hr
  simp only [dfQ8, List.mem_cons, List.not_mem_nil, or_false] at hr
  rcases hr with rfl | rfl | rfl | rfl | rfl | rfl | rfl | rfl <;>
    exact ⟨_, rfl⟩

theorem c2_continuous_quantile_facets_witness :
    (∀ r ∈ dfQ8, ∃ q : ℚ, rowGet r "v" = some (Value.num q)) ∧
    dfQ8 ≠ [] ∧
    List.Chain' (· < ·) (qcutEdges (colRats dfQ8 "v")) ∧
    (∃ (L0 L1 L2 L3 : Value) (e1 e2 e3 e4 : ℚ),
      make_facets_continuous "v" dfQ8 =
        Except.ok [Facet.continuous "v" L0 (none, some e1),
                   Facet.continuous "v" L1 (some e1, some e2),
                   Facet.continuous "v" L2 (some e2, some e3),
                   Facet.continuous "v" L3 (some e3, some e4)] ∧
      e1 < e2 ∧ e2 < e3 ∧ e3 < e4 ∧
      (∀ r ∈ dfQ8, ∀ q : ℚ, rowGet r "v" = some (Value.num q) →
        ((r ∈ (Facet.continuous "v" L0 (none, some e1)).filter dfQ8 ↔ q ≤ e1) ∧
         (r ∈ (Facet.continuous "v" L1 (some e1, some e2)).filter dfQ8 ↔
            e1 < q ∧ q ≤ e2) ∧
         (r ∈ (Facet.continuous "v" L2 (some e2, some e3)).filter dfQ8 ↔
            e2 < q ∧ q ≤ e3) ∧
         (r ∈ (Facet.continuous "v" L3 (some e3, some e4)).filter dfQ8 ↔
            e3 < q ∧ q ≤ e4))) ∧
      (∀ f ∈ [Facet.continuous "v" L0 (none, some e1),
              Facet.continuous "v" L1 (some e1, some e2),
              Facet.continuous "v" L2 (some e2, some e3),
              Facet.continuous "v" L3 (some e3, some e4)],
       ∀ g ∈ [Facet.continuous "v" L0 (none, some e1),
              Facet.continuous "v" L1 (some e1, some e2),
              Facet.continuous "v" L2 (some e2, some e3),
              Facet.continuous "v" L3 (some e3, some e4)],
         f ≠ g → ∀ r : Row, r ∈ f.filter dfQ8 → r ∉ g.filter dfQ8) ∧
      (∀ r ∈ dfQ8, ∃ f ∈ [Facet.continuous "v" L0 (none, some e1),
                          Facet.continuous "v" L1 (some e1, some e2),
                          Facet.continuous "v" L2 (some e2, some e3),
                          Facet.continuous "v" L3 (some e3, some e4)],
          r ∈ f.filter dfQ8) ∧
      (∀ r ∈ dfQ8, ∀ q : ℚ, rowGet r "v" = some (Value.num q) →
        (∀ r2 ∈ dfQ8, ∀ q2 : ℚ, rowGet r2 "v" = some (Value.num q2) → q ≤ q2) →
        r ∈ (Facet.continuous "v" L0 (none, some e1)).filter dfQ8)) :=
  ⟨dfQ8_vals, by simp [dfQ8], dfQ8_chain,
   c2_continuous_quantile_facets dfQ8 "v" dfQ8_vals (by simp [dfQ8]) dfQ8_chain⟩

/-!  ### Plot titles (C5)  -/

/-- Python `%`-formatting restricted to the `%s` conversions used by the
source: each `%s` in the format string is replaced by the next argument. -/
def pyFormatChars : List Char → List String → List Char
  | [], _ => []
  | '%' :: 's' :: rest, a :: args => a.toList ++ pyFormatChars rest args
  | c :: rest, args => c :: pyFormatChars rest args

/-- `fmt % args` for `%s`-only format strings. -/
def pyFormat (fmt : String) (args : List String) : String :=
  String.mk (pyFormatChars fmt.toList args)

/-- `CrossFilterPlugin.title`: `"%s by %s" % (self.x, self.y)`. -/
def plugin_title (x y : String) : String :=
  pyFormat "%s by %s" [x, y]

/-- `CrossBarPlugin.title`: `"%s(%s) by %s" % (self.agg, self.y, self.x)`. -/
def bar_plugin_title (agg y x : String) : String :=
  pyFormat "%s(%s) by %s" [agg, y, x]

theorem String.mk_append_mk (a b : List Char) :
    String.mk a ++ String.mk b = String.mk (a ++ b) := rfl

/-- C5 counterexample: at `x = "a"`, `y = "b"` the base plugin title is
`"a by b"` — the x column followed by the y column — not the claimed
`"{y} by {x}"` (which would be `"b by a"`). -/
theorem c5_titles_counterexample :
    plugin_title "a" "b" ≠ "b" ++ " by " ++ "a" := by decide

/-- C5 (amended): for every configuration with x column name `X`, y
column name `Y` and aggregation `A`, the default plot title produced by
the base plugin is the string `"{x} by {y}"` — `X` followed by `" by "`
followed by `Y`, in that order (the source formats
`"%s by %s" % (self.x, self.y)`) — while the bar plugin's title is
`"{aggregation}({y}) by {x}"` as the claim states. -/
theorem c5_titles (X Y A : String) :
    plugin_title X Y = X ++ " by " ++ Y ∧
    bar_plugin_title A Y X = A ++ "(" ++ Y ++ ") by " ++ X := by
  obtain ⟨lx⟩ := X
  obtain ⟨ly⟩ := Y
  obtain ⟨la⟩ := A
  constructor
  · show pyFormat "%s by %s" [String.mk lx, String.mk ly] = _
    simp only [pyFormat, pyFormatChars, String.toList]
    rw [show (" by " : String) = String.mk [' ', 'b', 'y', ' '] from rfl,
      String.mk_append_mk, String.mk_append_mk]
    simp
  · show pyFormat "%s(%s) by %s" [String.mk la, String.mk ly, String.mk lx] = _
    simp only [pyFormat, pyFormatChars, String.toList]
    rw [show ("(" : String) = String.mk ['('] from rfl,
      show (") by " : String) = String.mk [')', ' ', 'b', 'y', ' '] from rfl,
      String.mk_append_mk, String.mk_append_mk, String.mk_append_mk,
      String.mk_append_mk]
    simp

/-!  ### Plot plugins: validation (C4)  -/

/-- The state of a `CrossFilterPlugin` that `validate_plot` reads and
writes: the configured axis columns and aggregation, the column
metadata (`self.col_meta`), the plot's pre-filtered data
(`self.source` / `self.df`), the `facet` flag, and the mutable
`_title` / `valid_plot` pair. -/
structure PluginState where
  x : String
  y : String
  agg : String
  columns : List ColDesc
  df : DataFrame
  facet : Bool
  title : String
  valid : Bool
deriving Repr

/-- `len(self.source.data[c])`: the number of entries of column `c`. -/
def colLen (df : DataFrame) (c : String) : ℕ :=
  ((df : List Row).filterMap (fun r => rowGet r c)).length

/-- `CrossFilterPlugin.validate_plot`: when not faceting and either axis
column has no values, flag the plot invalid with an
"all data filtered out" title. -/
def validate_plot (s : PluginState) : PluginState :=
  if s.facet = false ∧ (colLen s.df s.x = 0 ∨ colLen s.df s.y = 0) then
    { s with title := "All data is filtered out.", valid := false }
  else s

/-- `self.y_type = self.col_meta[self.y]['type']` (the Python `KeyError`
on an unknown column is modelled as `none`; the theorems assume the
column exists, as every constructed plugin does). -/
def y_type (s : PluginState) : Option String :=
  (lookupDesc s.columns s.y).map ColDesc.type

/-- `CrossBarPlugin.validate_plot`: the base check, then the three bar
checks in source order — discrete y column, `x == y`, empty subset —
each overwriting the title and clearing `valid_plot`. -/
def bar_validate_plot (s : PluginState) : PluginState :=
  let s1 := validate_plot s
  let s2 := if y_type s1 = some "DiscreteColumn" then
      { s1 with title := "Bar does not support discrete y column",
                valid := false }
    else s1
  let s3 := if s2.x = s2.y then
      { s2 with title := "Bar does not support x and y of same column",
                valid := false }
    else s2
  if s3.df.isEmpty then
    { s3 with title := "All data is filtered out", valid := false }
  else s3

theorem colLen_ne_zero (df : DataFrame) (c : String)
    (h : ∀ r ∈ df, (rowGet r c).isSome) (hne : df ≠ []) :
    colLen df c ≠ 0 := by
  cases df with
  | nil => exact absurd rfl hne
  | cons r0 rest =>
      obtain ⟨v, hv⟩ := Option.isSome_iff_exists.mp
        (h r0 (List.mem_cons_self r0 rest))
      have hmem : v ∈ (r0 :: rest).filterMap (fun r => rowGet r c) :=
        List.mem_filterMap.mpr ⟨r0, List.mem_cons_self r0 rest, hv⟩
      unfold colLen
      intro hlen
      rw [List.length_eq_zero.mp hlen] at hmem
      cases hmem

theorem ite_title_update_df (c : Prop) [Decidable c] (s : PluginState)
    (t : String) :
    (if c then { s with title := t, valid := false } else s).df = s.df := by
  split <;> rfl

theorem validate_plot_df (s : PluginState) : (validate_plot s).df = s.df := by
  unfold validate_plot
  split <;> rfl

theorem bar_validate_plot_of_empty (s : PluginState) (hdf : s.df = []) :
    (bar_validate_plot s).valid = false ∧
    (bar_validate_plot s).title = "All data is filtered out" := by
  simp only [bar_validate_plot]
  rw [ite_title_update_df, ite_title_update_df, validate_plot_df, hdf]
  simp

/-- C4: the bar plugin's validate step returns invalid — and sets the
specific diagnostic title of each case, the source applying the checks
in order (discrete y, then `x == y`, then empty subset, so a later check
overwrites an earlier title) — exactly when the y column's kind is
Discrete, or `x = y`, or the filtered subset is empty; in every other
case the bar plot stays valid. -/
theorem c4_bar_validate (s : PluginState) (d : ColDesc)
    (hvalid : s.valid = true)
    (hy : lookupDesc s.columns s.y = some d)
    (hcols : ∀ r ∈ s.df, (rowGet r s.x).isSome ∧ (rowGet r s.y).isSome) :
    ((bar_validate_plot s).valid = false ↔
      (d.type = "DiscreteColumn" ∨ s.x = s.y ∨ s.df = [])) ∧
    (s.df = [] → (bar_validate_plot s).title = "All data is filtered out") ∧
    (s.df ≠ [] → s.x = s.y →
      (bar_validate_plot s).title = "Bar does not support x and y of same column") ∧
    (s.df ≠ [] → s.x ≠ s.y → d.type = "DiscreteColumn" →
      (bar_validate_plot s).title = "Bar does not support discrete y column") := by
  by_cases hdf : s.df = []
  · obtain ⟨hv, ht⟩ := bar_validate_plot_of_empty s hdf
    exact ⟨⟨fun _ => Or.inr (Or.inr hdf), fun _ => hv⟩,
      fun _ => ht,
      fun hne _ => absurd hdf hne,
      fun hne _ _ => absurd hdf hne⟩
  · have hx0 : colLen s.df s.x ≠ 0 :=
      colLen_ne_zero s.df s.x (fun r hr => (hcols r hr).1) hdf
    have hy0 : colLen s.df s.y ≠ 0 :=
      colLen_ne_zero s.df s.y (fun r hr => (hcols r hr).2) hdf
    have hbase : validate_plot s = s := by
      unfold validate_plot
      rw [if_neg]
      rintro ⟨-, h0 | h0⟩
      · exact hx0 h0
      · exact hy0 h0
    have hisE : s.df.isEmpty = false := by
      cases hh : s.df.isEmpty with
      | false => rfl
      | true => exact absurd (List.isEmpty_iff.mp hh) hdf
    have hyt : y_type s = some d.type := by
      simp [y_type, hy]
    by_cases hdt : d.type = "DiscreteColumn" <;> by_cases hxy : s.x = s.y <;>
      simp only [bar_validate_plot, hbase, hyt, Option.some_inj] <;>
      simp_all [hvalid, hisE]

/-- Concrete plugin state for the C4 witness: continuous y column,
distinct x and y, nonempty subset — the bar plot is valid. -/
def pluginS4 : PluginState :=
  { x := "a", y := "b", agg := "sum",
    columns := [⟨"a", "ContinuousColumn"⟩, ⟨"b", "ContinuousColumn"⟩],
    df := [[("a", Value.num 1), ("b", Value.num 2)]],
    facet := false, title := "", valid := true }

theorem c4_bar_validate_witness :
    pluginS4.valid = true ∧
    lookupDesc pluginS4.columns pluginS4.y =
      some ⟨"b", "ContinuousColumn"⟩ ∧
    (∀ r ∈ pluginS4.df,
      (rowGet r pluginS4.x).isSome ∧ (rowGet r pluginS4.y).isSome) ∧
    (((bar_validate_plot pluginS4).valid = false ↔
        ((ColDesc.mk "b" "ContinuousColumn").type = "DiscreteColumn" ∨
          pluginS4.x = pluginS4.y ∨ pluginS4.df = [])) ∧
     (pluginS4.df = [] →
        (bar_validate_plot pluginS4).title = "All data is filtered out") ∧
     (pluginS4.df ≠ [] → pluginS4.x = pluginS4.y →
        (bar_validate_plot pluginS4).title =
          "Bar does not support x and y of same column") ∧
     (pluginS4.df ≠ [] → pluginS4.x ≠ pluginS4.y →
        (ColDesc.mk "b" "ContinuousColumn").type = "DiscreteColumn" →
        (bar_validate_plot pluginS4).title =
          "Bar does not support discrete y column")) :=
  ⟨rfl, rfl, by decide,
   c4_bar_validate pluginS4 ⟨"b", "ContinuousColumn"⟩ rfl rfl (by decide)⟩

/-!  ### Grid axis de-duplication (C1)

`CrossFilter.hide_internal_axes` walks a grid (list of rows of plots)
and calls `hide_axes` on interior cells.  The only part of a plot it
touches is the visibility of its two axes, so a plot is embedded as a
pair of hidden-flags. -/

/-- The axis-visibility state of one plot in a grid. -/
structure AxisFlags where
  xHidden : Bool
  yHidden : Bool
deriving DecidableEq, Repr, Inhabited

/-- The `axes` argument of `hide_axes`: the default hides both axes. -/
inductive AxesArg where
  | both
  | onlyX
  | onlyY
deriving DecidableEq, Repr

/-- Modelled from the spec: `hide_axes` from `crossfilter/plotting.py`
is not under `src/`; per the spec (§4.3 "interior cells have redundant
axis labels suppressed") it hides the named axes of a plot, both axes by
default. -/
def hide_axes (arg : AxesArg) (p : AxisFlags) : AxisFlags :=
  match arg with
  | AxesArg.both => { xHidden := true, yHidden := true }
  | AxesArg.onlyX => { p with xHidden := true }
  | AxesArg.onlyY => { p with yHidden := true }

/-- Python 2 semantics of `j >= next_len` at line 789 of the source:
`next_len` is `None` whenever the current row is not the second-to-last
row, and in Python 2 any `int` compares greater than `None`, so the
comparison is `True` in that case. -/
def geOpt (j : ℕ) : Option ℕ → Bool
  | some m => decide (m ≤ j)
  | none => true

/-- The inner loop `for j, plot in enumerate(row)` of
`hide_internal_axes`, carrying the column index `j`. -/
def hideRow (isBottom : Bool) (nextLen : Option ℕ) :
    ℕ → List AxisFlags → List AxisFlags
  | _, [] => []
  | j, p :: ps =>
      let p1 :=
        if j ≠ 0 then
          if isBottom = true ∨ geOpt j nextLen = true then
            hide_axes AxesArg.onlyY p
          else
            hide_axes AxesArg.both p
        else if isBottom = false then hide_axes AxesArg.onlyX p
        else p
      p1 :: hideRow isBottom nextLen (j + 1) ps

/-- `CrossFilter.hide_internal_axes`: for each row, `is_bottom` holds on
the last row, `next_len` is the length of the next row when the next row
is the last one and `None` otherwise, and each cell is updated per
`hideRow`. -/
def hide_internal_axes : List (List AxisFlags) → List (List AxisFlags)
  | [] => []
  | row :: rest =>
      let isBottom := rest.isEmpty
      let nextLen : Option ℕ :=
        match rest with
        | [next] => some next.length
        | _ => none
      hideRow isBottom nextLen 0 row :: hide_internal_axes rest

/-- The loop body of `hide_internal_axes` for one cell, given the cell's
column index `j`. -/
def cellUpdate (isBottom : Bool) (nextLen : Option ℕ) (j : ℕ)
    (p : AxisFlags) : AxisFlags :=
  if j ≠ 0 then
    if isBottom = true ∨ geOpt j nextLen = true then
      hide_axes AxesArg.onlyY p
    else
      hide_axes AxesArg.both p
  else if isBottom = false then hide_axes AxesArg.onlyX p
  else p

theorem hideRow_getD (isB : Bool) (nl : Option ℕ) :
    ∀ (ps : List AxisFlags) (j0 k : ℕ), k < ps.length →
      (hideRow isB nl j0 ps).getD k default =
        cellUpdate isB nl (j0 + k) (ps.getD k default) := by
  intro ps
  induction ps with
  | nil => intro j0 k hk; cases hk
  | cons p ps ih =>
      intro j0 k hk
      cases k with
      | zero => rfl
      | succ k =>
          have hk2 : k < ps.length := Nat.lt_of_succ_lt_succ hk
          show (hideRow isB nl (j0 + 1) ps).getD k default = _
          rw [ih (j0 + 1) k hk2,
            show j0 + (k + 1) = j0 + 1 + k by omega]
          rfl

theorem hide_internal_axes_getD :
    ∀ (g : List (List AxisFlags)) (i : ℕ), i < g.length →
      (hide_internal_axes g).getD i [] =
        hideRow (decide (g.length = i + 1))
          (if g.length = i + 2 then some ((g.getD (i + 1) []).length)
           else none)
          0 (g.getD i []) := by
  intro g
  induction g with
  | nil => intro i hi; cases hi
  | cons row rest ih =>
      intro i hi
      cases i with
      | zero =>
          cases rest with
          | nil => simp [hide_internal_axes]
          | cons next rest2 =>
              cases rest2 with
              | nil => simp [hide_internal_axes]
              | cons n2 rest3 =>
                  show hideRow false none 0 row = _
                  rw [decide_eq_false (by simp), if_neg (by simp)]
                  rfl
      | succ i =>
          have hi2 : i < rest.length := Nat.lt_of_succ_lt_succ hi
          show (hide_internal_axes rest).getD i [] = _
          rw [ih i hi2]
          have hb : (decide (rest.length = i + 1)) =
              (decide ((row :: rest).length = i + 1 + 1)) := by
            rw [decide_eq_decide]
            simp
          have hnb : (rest.length = i + 2) ↔
              ((row :: rest).length = i + 1 + 2) := by
            simp
          rw [hb]
          by_cases h : rest.length = i + 2
          · rw [if_pos h, if_pos (hnb.mp h)]
            rfl
          · rw [if_neg h, if_neg (fun hc => h (hnb.mpr hc))]
            rfl

/-- The claim's example grid: 3 rows, 2 columns, the last row holding a
single cell; all axes initially visible. -/
def exGridC1 : List (List AxisFlags) :=
  [[⟨false, false⟩, ⟨false, false⟩],
   [⟨false, false⟩, ⟨false, false⟩],
   [⟨false, false⟩]]

/-- C1 counterexample: on the claim's own 3-row, 2-column grid the code
hides only the y-axis of cells (0,1) and (1,1) — their x-axes stay
visible — whereas the claim (both its general rule at cell (1,1), where
the next row is too short, and its enumerated example at cells (0,1) and
(1,1)) demands that both axes be hidden there.  The `axes='y'` branch of
the source hides only y, and under Python 2 `j >= None` is `True` for
every row above the second-to-last. -/
theorem c1_hide_internal_axes_counterexample :
    hide_internal_axes exGridC1 =
      [[⟨true, false⟩, ⟨false, true⟩],
       [⟨true, false⟩, ⟨false, true⟩],
       [⟨false, false⟩]] := by decide

theorem cellUpdate_eval (isB : Bool) (nl : Option ℕ) (j : ℕ)
    (px py : Bool) :
    cellUpdate isB nl j ⟨px, py⟩ =
      AxisFlags.mk
        (px || (decide (j ≠ 0) && (!isB && !geOpt j nl) ||
                !decide (j ≠ 0) && !isB))
        (py || decide (j ≠ 0)) := by
  by_cases hj0 : j = 0
  · have d1 : decide (j ≠ 0) = false := decide_eq_false (by omega)
    rw [d1]
    simp only [cellUpdate, if_neg (show ¬ j ≠ 0 by omega)]
    cases isB with
    | true => simp [hide_axes]
    | false => simp [hide_axes]
  · have d1 : decide (j ≠ 0) = true := decide_eq_true hj0
    rw [d1]
    simp only [cellUpdate, if_pos hj0]
    cases isB with
    | true => simp [hide_axes]
    | false =>
        cases hgo : geOpt j nl with
        | true => simp [hide_axes, hgo]
        | false => simp [hide_axes, hgo]

/-- C1 (amended): for every grid processed by `hide_internal_axes`,
with 0-based row index `i` and column index `j` (under Python 2
semantics, where the source's `j >= next_len` comparison is `True`
whenever `next_len` is `None`): a cell with `j ≠ 0` always hides its
y-axis, and additionally hides its x-axis exactly when the row is the
second-to-last row and the next (bottom) row still has a cell under
column `j`; a cell with `j = 0` in a non-bottom row hides only its
x-axis; bottom-row cells with `j = 0` are untouched.  In particular, for
the 3-row, 2-column grid whose last row has 1 cell, cell (0,0) hides x
only, cell (0,1) hides y only, cell (1,0) hides x only, cell (1,1) hides
y only, and cell (2,0) hides neither. -/
theorem c1_hide_internal_axes_cells (g : List (List AxisFlags)) (i j : ℕ)
    (hi : i < g.length) (hj : j < (g.getD i []).length) :
    ((hide_internal_axes g).getD i []).getD j default =
      (let p := (g.getD i []).getD j default
       let isBottom := i + 1 = g.length
       let nextBottom := i + 2 = g.length
       let hideY := j ≠ 0
       let hideX :=
         if j ≠ 0 then
           ¬isBottom ∧ nextBottom ∧ j < (g.getD (i + 1) []).length
         else ¬isBottom
       AxisFlags.mk (p.xHidden || decide hideX)
         (p.yHidden || decide hideY)) := by
  rw [hide_internal_axes_getD g i hi, hideRow_getD _ _ _ 0 j hj,
    Nat.zero_add]
  show cellUpdate (decide (g.length = i + 1))
      (if g.length = i + 2 then some ((g.getD (i + 1) []).length) else none)
      j ((g.getD i []).getD j default) =
    AxisFlags.mk
      (((g.getD i []).getD j default).xHidden ||
        decide (if j ≠ 0 then
            ¬(i + 1 = g.length) ∧ (i + 2 = g.length) ∧
              j < (g.getD (i + 1) []).length
          else ¬(i + 1 = g.length)))
      (((g.getD i []).getD j default).yHidden || decide (j ≠ 0))
  generalize (g.getD i []).getD j default = p
  obtain ⟨px, py⟩ := p
  rw [cellUpdate_eval]
  by_cases hj0 : j = 0
  · have d1 : decide (j ≠ 0) = false := decide_eq_false (by omega)
    have hI : decide (if j ≠ 0 then
          ¬(i + 1 = g.length) ∧ (i + 2 = g.length) ∧
            j < (g.getD (i + 1) []).length
        else ¬(i + 1 = g.length)) = decide (¬(i + 1 = g.length)) :=
      decide_eq_decide.mpr (iff_of_eq (if_neg (by omega)))
    rw [d1, hI]
    by_cases hb : g.length = i + 1
    · rw [decide_eq_true hb, decide_eq_false
        (show ¬¬(i + 1 = g.length) from fun hc => hc hb.symm)]
      rfl
    · rw [decide_eq_false hb, decide_eq_true
        (show ¬(i + 1 = g.length) from fun hc => hb hc.symm)]
      rfl
  · have d1 : decide (j ≠ 0) = true := decide_eq_true hj0
    have hI : decide (if j ≠ 0 then
          ¬(i + 1 = g.length) ∧ (i + 2 = g.length) ∧
            j < (g.getD (i + 1) []).length
        else ¬(i + 1 = g.length)) =
        decide (¬(i + 1 = g.length) ∧ (i + 2 = g.length) ∧
          j < (g.getD (i + 1) []).length) :=
      decide_eq_decide.mpr (iff_of_eq (if_pos hj0))
    rw [d1, hI]
    by_cases hb : g.length = i + 1
    · rw [decide_eq_true hb, decide_eq_false
        (show ¬(¬(i + 1 = g.length) ∧ (i + 2 = g.length) ∧
            j < (g.getD (i + 1) []).length) from fun hc => hc.1 hb.symm)]
      rfl
    · rw [decide_eq_false hb]
      by_cases hnb : g.length = i + 2
      · by_cases hlt : j < (g.getD (i + 1) []).length
        · rw [show geOpt j (if g.length = i + 2
              then some ((g.getD (i + 1) []).length) else none) = false from
                by rw [if_pos hnb]; exact decide_eq_false (by omega),
            decide_eq_true (⟨fun hc => hb hc.symm, hnb.symm, hlt⟩ :
              ¬(i + 1 = g.length) ∧ (i + 2 = g.length) ∧
                j < (g.getD (i + 1) []).length)]
          rfl
        · rw [show geOpt j (if g.length = i + 2
              then some ((g.getD (i + 1) []).length) else none) = true from
                by rw [if_pos hnb]; exact decide_eq_true (by omega),
            decide_eq_false
              (show ¬(¬(i + 1 = g.length) ∧ (i + 2 = g.length) ∧
                  j < (g.getD (i + 1) []).length) from
                fun hc => hlt hc.2.2)]
          rfl
      · rw [show geOpt j (if g.length = i + 2
            then some ((g.getD (i + 1) []).length) else none) = true from
              by rw [if_neg hnb]; rfl,
          decide_eq_false
            (show ¬(¬(i + 1 = g.length) ∧ (i + 2 = g.length) ∧
                j < (g.getD (i + 1) []).length) from
              fun hc => hnb hc.2.1.symm)]
        rfl

theorem c1_hide_internal_axes_cells_witness :
    1 < exGridC1.length ∧ 1 < (exGridC1.getD 1 []).length ∧
    ((hide_internal_axes exGridC1).getD 1 []).getD 1 default =
      (let p := (exGridC1.getD 1 []).getD 1 default
       let isBottom := 1 + 1 = exGridC1.length
       let nextBottom := 1 + 2 = exGridC1.length
       let hideY := 1 ≠ 0
       let hideX :=
         if 1 ≠ 0 then
           ¬isBottom ∧ nextBottom ∧ 1 < (exGridC1.getD (1 + 1) []).length
         else ¬isBottom
       AxisFlags.mk (p.xHidden || decide hideX)
         (p.yHidden || decide hideY)) :=
  ⟨by decide, by decide,
   c1_hide_internal_axes_cells exGridC1 1 1 (by decide) (by decide)⟩

/-!  ### The filter pipeline (C8, C10)

`CrossFilter.handle_filter_selection` recomputes the filtered dataset
from scratch (`df = self.df`), applying per-column constraints from the
filter widgets (discrete columns) and the histogram filter sources
(time/continuous columns).  `clear_selections` deletes the widgets and
sources of columns removed from `filtering_columns` and then reruns the
recompute. -/

/-- The value of a discrete filter widget (`MultiSelect.value`); the
source also guards against a plain-string value with `isinstance`. -/
inductive DSel where
  | strVal (s : String)
  | listVal (l : List String)
deriving DecidableEq, Repr

/-- A filter widget: a `MultiSelect` for a discrete column, or the
histogram figure used for a continuous/time column (which carries no
`value`). -/
inductive WidgetVal where
  | multiselect (sel : DSel)
  | histWidget
deriving DecidableEq, Repr

/-- A histogram filter source: bin centers and the currently selected
bin indices. -/
structure HistSource where
  centers : List ℚ
  selected : List ℕ
deriving DecidableEq, Repr

/-- Association-list lookup keyed by column name (a Python dict). -/
def alGet {α : Type} : List (String × α) → String → Option α
  | [], _ => none
  | (k, v) :: rest, c => if k = c then some v else alGet rest c

/-- `del m[c]`: remove a key from a dict. -/
def alErase {α : Type} (m : List (String × α)) (c : String) :
    List (String × α) :=
  m.filter (fun p => !(p.1 = c : Bool))

/-- `if not selected` for a discrete widget value: the empty string and
the empty list are falsy. -/
def selIsEmpty : DSel → Bool
  | DSel.strVal s => s = ""
  | DSel.listVal l => l.isEmpty

/-- One iteration of the `for descriptor in self.columns` loop of
`handle_filter_selection`:  a discrete column with a widget applies its
multi-select membership constraint (`np.in1d`); a nonempty plain-string
selection reproduces the source's `df[colname == selected]`, which
indexes the frame with a bool scalar and raises `KeyError`; a time or
continuous column with a widget reads its histogram source and keeps
rows within the selected bin-center range; an empty selection leaves
`df` unchanged (`continue`). -/
def applyColumnFilter (widgets : List (String × WidgetVal))
    (sources : List (String × HistSource)) (df : DataFrame)
    (d : ColDesc) : Except Err DataFrame :=
  if d.type = "DiscreteColumn" then
    match alGet widgets d.name with
    | none => Except.ok df
    | some WidgetVal.histWidget => Except.error Err.attributeError
    | some (WidgetVal.multiselect sel) =>
        if selIsEmpty sel then Except.ok df
        else
          match sel with
          | DSel.strVal _ => Except.error Err.keyError
          | DSel.listVal l =>
              Except.ok ((df : List Row).filter (fun r =>
                l.any (fun s => rowGet r d.name == some (Value.str s))))
  else if d.type = "TimeColumn" ∨ d.type = "ContinuousColumn" then
    match alGet widgets d.name with
    | none => Except.ok df
    | some _ =>
        match alGet sources d.name with
        | none => Except.error Err.keyError
        | some src =>
            if src.selected.isEmpty then Except.ok df
            else
              let minIdx := src.selected.foldl min (src.selected.headD 0)
              let maxIdx := src.selected.foldl max (src.selected.headD 0)
              match src.centers.get? minIdx, src.centers.get? maxIdx with
              | some minVal, some maxVal =>
                  Except.ok ((df : List Row).filter (fun r =>
                    match rowRat r d.name with
                    | some q => decide (minVal ≤ q ∧ q ≤ maxVal)
                    | none => false))
              | _, _ => Except.error Err.indexError
  else Except.ok df

/-- The recompute loop of `handle_filter_selection`: starting from the
full dataset, apply each column's constraint in turn. -/
def computeFiltered (widgets : List (String × WidgetVal))
    (sources : List (String × HistSource)) (cols : List ColDesc)
    (df : DataFrame) : Except Err DataFrame :=
  match cols with
  | [] => Except.ok df
  | d :: rest =>
      match applyColumnFilter widgets sources df d with
      | Except.error e => Except.error e
      | Except.ok df1 => computeFiltered widgets sources rest df1

theorem alErase_cons_drop {α : Type} (k : String) (v : α)
    (rest : List (String × α)) (c : String) (hk : k = c) :
    alErase ((k, v) :: rest) c = alErase rest c := by
  simp [alErase, List.filter_cons, hk]

theorem alErase_cons_keep {α : Type} (k : String) (v : α)
    (rest : List (String × α)) (c : String) (hk : ¬ k = c) :
    alErase ((k, v) :: rest) c = (k, v) :: alErase rest c := by
  simp [alErase, List.filter_cons, hk]

theorem alGet_alErase_self {α : Type} (m : List (String × α))
    (c : String) : alGet (alErase m c) c = none := by
  induction m with
  | nil => rfl
  | cons p rest ih =>
      obtain ⟨k, v⟩ := p
      by_cases hk : k = c
      · rw [alErase_cons_drop k v rest c hk]
        exact ih
      · rw [alErase_cons_keep k v rest c hk]
        show (if k = c then some v else alGet (alErase rest c) c) = none
        rw [if_neg hk]
        exact ih

theorem alGet_alErase_ne {α : Type} (m : List (String × α))
    (c k : String) (h : k ≠ c) : alGet (alErase m c) k = alGet m k := by
  induction m with
  | nil => rfl
  | cons p rest ih =>
      obtain ⟨k2, v⟩ := p
      by_cases hk : k2 = c
      · rw [alErase_cons_drop k2 v rest c hk]
        show alGet (alErase rest c) k =
          (if k2 = k then some v else alGet rest k)
        rw [if_neg (fun hc => h (by rw [← hc, hk]))]
        exact ih
      · rw [alErase_cons_keep k2 v rest c hk]
        show (if k2 = k then some v else alGet (alErase rest c) k) =
          (if k2 = k then some v else alGet rest k)
        by_cases hk2 : k2 = k
        · rw [if_pos hk2, if_pos hk2]
        · rw [if_neg hk2, if_neg hk2]
          exact ih

theorem applyColumnFilter_erase_ne (widgets : List (String × WidgetVal))
    (sources : List (String × HistSource)) (df : DataFrame) (d : ColDesc)
    (col : String) (h : d.name ≠ col) :
    applyColumnFilter (alErase widgets col) sources df d =
      applyColumnFilter widgets sources df d := by
  unfold applyColumnFilter
  rw [alGet_alErase_ne widgets col d.name h]

/-- "Column `col` has a filter widget whose current selection is empty":
for a discrete descriptor a multi-select with a falsy value, for a
time/continuous descriptor a present widget and a histogram source with
no selected bins. -/
def emptySelectionAt (widgets : List (String × WidgetVal))
    (sources : List (String × HistSource)) (cols : List ColDesc)
    (col : String) : Prop :=
  ∀ d ∈ cols, d.name = col →
    (d.type = "DiscreteColumn" →
      ∃ sel, alGet widgets col = some (WidgetVal.multiselect sel) ∧
        selIsEmpty sel = true) ∧
    (d.type = "TimeColumn" ∨ d.type = "ContinuousColumn" →
      (alGet widgets col).isSome ∧
      ∃ src, alGet sources col = some src ∧ src.selected = [])

/-- C10: a filter widget whose current selection is empty imposes no
constraint — recomputing the filtered dataset with the empty-selection
widget of column `col` in place gives exactly the same result as
recomputing without any widget for `col` at all, so all rows are
retained with respect to that column rather than the empty selection
filtering out every row. -/
theorem c10_empty_selection_no_constraint
    (widgets : List (String × WidgetVal))
    (sources : List (String × HistSource)) (cols : List ColDesc)
    (df : DataFrame) (col : String)
    (h : emptySelectionAt widgets sources cols col) :
    computeFiltered widgets sources cols df =
      computeFiltered (alErase widgets col) sources cols df := by
  revert h
  induction cols generalizing df with
  | nil => intro h; rfl
  | cons d rest ih =>
      intro h
      have hrest : emptySelectionAt widgets sources rest col :=
        fun d2 hd2 => h d2 (List.mem_cons_of_mem _ hd2)
      have hstep : applyColumnFilter widgets sources df d =
          applyColumnFilter (alErase widgets col) sources df d := by
        by_cases hname : d.name = col
        · obtain ⟨hdisc, hcont⟩ := h d (List.mem_cons_self _ _) hname
          unfold applyColumnFilter
          rw [hname, alGet_alErase_self]
          by_cases ht1 : d.type = "DiscreteColumn"
          · obtain ⟨sel, hw, hse⟩ := hdisc ht1
            simp only [if_pos ht1]
            rw [hw]
            simp [hse]
          · rw [if_neg ht1, if_neg ht1]
            by_cases ht2 : d.type = "TimeColumn" ∨ d.type = "ContinuousColumn"
            · obtain ⟨hws, src, hs, hsel⟩ := hcont ht2
              simp only [if_pos ht2]
              obtain ⟨w, hw⟩ := Option.isSome_iff_exists.mp hws
              rw [hw, hs]
              simp [hsel]
            · simp only [if_neg ht2]
        · exact (applyColumnFilter_erase_ne widgets sources df d col hname).symm
      show (match applyColumnFilter widgets sources df d with
        | Except.error e => Except.error e
        | Except.ok df1 => computeFiltered widgets sources rest df1) =
        (match applyColumnFilter (alErase widgets col) sources df d with
        | Except.error e => Except.error e
        | Except.ok df1 =>
            computeFiltered (alErase widgets col) sources rest df1)
      rw [← hstep]
      cases happly : applyColumnFilter widgets sources df d with
      | error e => rfl
      | ok df1 => exact ih df1 hrest

/-- Concrete filter state for the C10 witness: a discrete column `cat`
with a multi-select widget whose selection is empty. -/
def wC10 : List (String × WidgetVal) :=
  [("cat", WidgetVal.multiselect (DSel.listVal []))]

/-- Column metadata for the C10 witness. -/
def colsC10 : List ColDesc := [⟨"cat", "DiscreteColumn"⟩]

/-- Dataset for the C10 witness: one `A` row and one `B` row. -/
def dfC10 : DataFrame :=
  [[("cat", Value.str "A")], [("cat", Value.str "B")]]

theorem c10_empty_selection_no_constraint_witness :
    emptySelectionAt wC10 [] colsC10 "cat" ∧
    computeFiltered wC10 [] colsC10 dfC10 =
      computeFiltered (alErase wC10 "cat") [] colsC10 dfC10 := by
  have hemp : emptySelectionAt wC10 [] colsC10 "cat" := by
    intro d hd hname
    simp only [colsC10, List.mem_cons, List.not_mem_nil, or_false] at hd
    subst hd
    refine ⟨fun _ => ⟨DSel.listVal [], rfl, rfl⟩, fun ht2 => ?_⟩
    rcases ht2 with h2 | h2 <;> exact absurd h2 (by decide)
  exact ⟨hemp,
    c10_empty_selection_no_constraint wC10 [] colsC10 dfC10 "cat" hemp⟩

/-- The `CrossFilter` state touched by `clear_selections` /
`handle_filter_selection`: column metadata, the full dataset `df`, the
published filtered dataset (`filtered_data`), and the per-column filter
widgets and histogram sources. -/
structure CFState where
  columns : List ColDesc
  df : DataFrame
  filtered : DataFrame
  filter_widgets : List (String × WidgetVal)
  filter_sources : List (String × HistSource)

/-- `diff = set(old) - set(new)`, modelled in first-occurrence order
(Python's set iteration order is unspecified; the deletions performed
over `diff` commute, so the order is immaterial). -/
def setDiff (old new : List String) : List String :=
  old.dedup.filter (fun c => !(new.contains c))

/-- The `for col in diff` deletion loop of `clear_selections`: look up
the column's metadata (`KeyError` if absent), for a non-discrete column
`del self.filter_sources[col]`, then `del self.filter_widgets[col]`
(`del` on a missing key raises `KeyError`).  The two `del` statements
are sequential in the source; deleting the filter source does not affect
the widget lookup, so the branch performs both deletions at once. -/
def delete_selections : List String → CFState → Except Err CFState
  | [], st => Except.ok st
  | col :: rest, st =>
      match lookupDesc st.columns col with
      | none => Except.error Err.keyError
      | some meta =>
          if meta.type ≠ "DiscreteColumn" then
            match alGet st.filter_sources col with
            | none => Except.error Err.keyError
            | some _ =>
                match alGet st.filter_widgets col with
                | none => Except.error Err.keyError
                | some _ =>
                    delete_selections rest
                      { st with
                        filter_sources := alErase st.filter_sources col,
                        filter_widgets := alErase st.filter_widgets col }
          else
            match alGet st.filter_widgets col with
            | none => Except.error Err.keyError
            | some _ =>
                delete_selections rest
                  { st with
                    filter_widgets := alErase st.filter_widgets col }

/-- `CrossFilter.clear_selections`: delete the widgets (and sources) of
every removed column, then — when anything was removed — rerun
`handle_filter_selection`, which recomputes the filtered dataset from
the full dataset with the remaining widgets and publishes it into
`filtered_data` (its final `set_plot` call is outside this state). -/
def clear_selections (st : CFState) (old new : List String) :
    Except Err CFState :=
  let diff := setDiff old new
  match delete_selections diff st with
  | Except.error e => Except.error e
  | Except.ok st1 =>
      if diff.isEmpty then Except.ok st1
      else
        match computeFiltered st1.filter_widgets st1.filter_sources
            st1.columns st1.df with
        | Except.error e => Except.error e
        | Except.ok df1 => Except.ok { st1 with filtered := df1 }

/-- Repeated dict deletion. -/
def eraseMany {α : Type} (m : List (String × α)) (cs : List String) :
    List (String × α) :=
  cs.foldl alErase m

/-- Whether column `c` is a non-discrete column of `cols` (whose filter
source must also be deleted). -/
def nonDiscreteIn (cols : List ColDesc) (c : String) : Bool :=
  match lookupDesc cols c with
  | some d => !(d.type = "DiscreteColumn" : Bool)
  | none => false

theorem alGet_alErase_none {α : Type} (m : List (String × α))
    (c c2 : String) (h : alGet m c = none) :
    alGet (alErase m c2) c = none := by
  by_cases hc : c = c2
  · subst hc
    exact alGet_alErase_self m c
  · rw [alGet_alErase_ne m c2 c hc]
    exact h

theorem alGet_eraseMany_none {α : Type} (cs : List String) :
    ∀ (m : List (String × α)) (c : String), alGet m c = none →
      alGet (eraseMany m cs) c = none := by
  induction cs with
  | nil => intro m c h; exact h
  | cons c0 rest ih =>
      intro m c h
      exact ih (alErase m c0) c (alGet_alErase_none m c c0 h)

theorem alGet_eraseMany_mem {α : Type} (cs : List String) :
    ∀ (m : List (String × α)) (c : String), c ∈ cs →
      alGet (eraseMany m cs) c = none := by
  induction cs with
  | nil => intro m c h; cases h
  | cons c0 rest ih =>
      intro m c h
      rcases List.mem_cons.mp h with rfl | hrest
      · exact alGet_eraseMany_none rest (alErase m c) c
          (alGet_alErase_self m c)
      · exact ih (alErase m c0) c hrest

theorem delete_selections_ok (cs : List String) :
    ∀ (st : CFState), cs.Nodup →
      (∀ c ∈ cs, (lookupDesc st.columns c).isSome ∧
        (alGet st.filter_widgets c).isSome ∧
        (nonDiscreteIn st.columns c = true →
          (alGet st.filter_sources c).isSome)) →
      delete_selections cs st = Except.ok
        { st with
          filter_widgets := eraseMany st.filter_widgets cs,
          filter_sources := eraseMany st.filter_sources
            (cs.filter (nonDiscreteIn st.columns)) } := by
  induction cs with
  | nil => intro st hnd h; rfl
  | cons col rest ih =>
      intro st hnd h
      obtain ⟨hmeta, hwid, hsrc⟩ := h col (List.mem_cons_self _ _)
      obtain ⟨meta, hm⟩ := Option.isSome_iff_exists.mp hmeta
      obtain ⟨w, hw⟩ := Option.isSome_iff_exists.mp hwid
      rw [List.nodup_cons] at hnd
      have hnonD : nonDiscreteIn st.columns col =
          !(meta.type = "DiscreteColumn" : Bool) := by
        simp [nonDiscreteIn, hm]
      show (match lookupDesc st.columns col with
        | none => Except.error Err.keyError
        | some meta =>
            if meta.type ≠ "DiscreteColumn" then
              match alGet st.filter_sources col with
              | none => Except.error Err.keyError
              | some _ =>
                  match alGet st.filter_widgets col with
                  | none => Except.error Err.keyError
                  | some _ =>
                      delete_selections rest
                        { st with
                          filter_sources := alErase st.filter_sources col,
                          filter_widgets := alErase st.filter_widgets col }
            else
              match alGet st.filter_widgets col with
              | none => Except.error Err.keyError
              | some _ =>
                  delete_selections rest
                    { st with
                      filter_widgets := alErase st.filter_widgets col }) = _
      rw [hm]
      dsimp only
      by_cases hdt : meta.type = "DiscreteColumn"
      · -- discrete column: only the widget is deleted
        have hfilt : (col :: rest).filter (nonDiscreteIn st.columns) =
            rest.filter (nonDiscreteIn st.columns) := by
          rw [List.filter_cons, hnonD, decide_eq_true hdt]
          simp
        rw [if_neg (show ¬ meta.type ≠ "DiscreteColumn" from
          fun hc => hc hdt), hw]
        dsimp only
        have hrest : ∀ c ∈ rest,
            (lookupDesc st.columns c).isSome ∧
            (alGet (alErase st.filter_widgets col) c).isSome ∧
            (nonDiscreteIn st.columns c = true →
              (alGet st.filter_sources c).isSome) := by
          intro c hc
          obtain ⟨h1, h2, h3⟩ := h c (List.mem_cons_of_mem _ hc)
          refine ⟨h1, ?_, h3⟩
          rw [alGet_alErase_ne st.filter_widgets col c
            (fun he => hnd.1 (he ▸ hc))]
          exact h2
        rw [ih { st with filter_widgets := alErase st.filter_widgets col }
          hnd.2 hrest, hfilt]
        rfl
      · -- non-discrete column: source and widget are deleted
        obtain ⟨src2, hs⟩ := Option.isSome_iff_exists.mp
          (hsrc (by rw [hnonD, decide_eq_false hdt]; rfl))
        have hfilt : (col :: rest).filter (nonDiscreteIn st.columns) =
            col :: rest.filter (nonDiscreteIn st.columns) := by
          rw [List.filter_cons, hnonD, decide_eq_false hdt]
          simp
        rw [if_pos (show meta.type ≠ "DiscreteColumn" from hdt), hs]
        dsimp only
        rw [hw]
        dsimp only
        have hrest : ∀ c ∈ rest,
            (lookupDesc st.columns c).isSome ∧
            (alGet (alErase st.filter_widgets col) c).isSome ∧
            (nonDiscreteIn st.columns c = true →
              (alGet (alErase st.filter_sources col) c).isSome) := by
          intro c hc
          obtain ⟨h1, h2, h3⟩ := h c (List.mem_cons_of_mem _ hc)
          have hne : c ≠ col := fun he => hnd.1 (he ▸ hc)
          refine ⟨h1, ?_, fun hnd2 => ?_⟩
          · rw [alGet_alErase_ne st.filter_widgets col c hne]
            exact h2
          · rw [alGet_alErase_ne st.filter_sources col c hne]
            exact h3 hnd2
        rw [ih { st with
            filter_sources := alErase st.filter_sources col,
            filter_widgets := alErase st.filter_widgets col }
          hnd.2 hrest, hfilt]
        rfl

/-- C8: for every set of columns removed from the filtering-columns set
that had active filter widgets, `clear_selections` deletes each removed
column's filter widget (and, for non-Discrete columns, its filter
source) and then recomputes the filtered dataset — from the full
dataset, with only the remaining widgets, so without the removed
columns' constraints — and publishes it as `filtered_data`. -/
theorem c8_clear_selections (st : CFState) (old new : List String)
    (hne : setDiff old new ≠ [])
    (h : ∀ c ∈ setDiff old new, (lookupDesc st.columns c).isSome ∧
        (alGet st.filter_widgets c).isSome ∧
        (nonDiscreteIn st.columns c = true →
          (alGet st.filter_sources c).isSome))
    (df1 : DataFrame)
    (hcf : computeFiltered (eraseMany st.filter_widgets (setDiff old new))
        (eraseMany st.filter_sources
          ((setDiff old new).filter (nonDiscreteIn st.columns)))
        st.columns st.df = Except.ok df1) :
    clear_selections st old new = Except.ok
      { st with
        filtered := df1,
        filter_widgets := eraseMany st.filter_widgets (setDiff old new),
        filter_sources := eraseMany st.filter_sources
          ((setDiff old new).filter (nonDiscreteIn st.columns)) } ∧
    (∀ c ∈ setDiff old new,
      alGet (eraseMany st.filter_widgets (setDiff old new)) c = none ∧
      (nonDiscreteIn st.columns c = true →
        alGet (eraseMany st.filter_sources
          ((setDiff old new).filter (nonDiscreteIn st.columns))) c =
          none)) := by
  have hnd : (setDiff old new).Nodup :=
    (List.nodup_dedup old).filter _
  constructor
  · have hdel := delete_selections_ok (setDiff old new) st hnd h
    show (match delete_selections (setDiff old new) st with
      | Except.error e => Except.error e
      | Except.ok st1 =>
          if (setDiff old new).isEmpty then Except.ok st1
          else
            match computeFiltered st1.filter_widgets st1.filter_sources
                st1.columns st1.df with
            | Except.error e => Except.error e
            | Except.ok df1 => Except.ok { st1 with filtered := df1 }) = _
    rw [hdel]
    dsimp only
    rw [if_neg (by
      intro hc
      exact hne (List.isEmpty_iff.mp hc))]
    rw [hcf]
  · intro c hc
    refine ⟨alGet_eraseMany_mem (setDiff old new) st.filter_widgets c hc,
      fun hndc => ?_⟩
    exact alGet_eraseMany_mem _ st.filter_sources c
      (List.mem_filter.mpr ⟨hc, hndc⟩)

/-- Concrete state for the C8 witness: the Discrete column `cat` has an
active multi-select widget selecting only `A`, and the published
filtered dataset currently holds only the `A` row, while the full
dataset also has a `B` row. -/
def stC8 : CFState :=
  { columns := [⟨"cat", "DiscreteColumn"⟩],
    df := [[("cat", Value.str "A")], [("cat", Value.str "B")]],
    filtered := [[("cat", Value.str "A")]],
    filter_widgets := [("cat", WidgetVal.multiselect (DSel.listVal ["A"]))],
    filter_sources := [] }

theorem c8_clear_selections_witness :
    setDiff ["cat"] [] ≠ [] ∧
    (∀ c ∈ setDiff ["cat"] [], (lookupDesc stC8.columns c).isSome ∧
        (alGet stC8.filter_widgets c).isSome ∧
        (nonDiscreteIn stC8.columns c = true →
          (alGet stC8.filter_sources c).isSome)) ∧
    computeFiltered (eraseMany stC8.filter_widgets (setDiff ["cat"] []))
        (eraseMany stC8.filter_sources
          ((setDiff ["cat"] []).filter (nonDiscreteIn stC8.columns)))
        stC8.columns stC8.df = Except.ok stC8.df ∧
    (clear_selections stC8 ["cat"] [] = Except.ok
      { stC8 with
        filtered := stC8.df,
        filter_widgets := eraseMany stC8.filter_widgets (setDiff ["cat"] []),
        filter_sources := eraseMany stC8.filter_sources
          ((setDiff ["cat"] []).filter (nonDiscreteIn stC8.columns)) } ∧
     (∀ c ∈ setDiff ["cat"] [],
       alGet (eraseMany stC8.filter_widgets (setDiff ["cat"] [])) c =
         none ∧
       (nonDiscreteIn stC8.columns c = true →
         alGet (eraseMany stC8.filter_sources
           ((setDiff ["cat"] []).filter (nonDiscreteIn stC8.columns))) c =
           none))) :=
  ⟨by decide, by decide, rfl,
   c8_clear_selections stC8 ["cat"] [] (by decide) (by decide) stC8.df rfl⟩

/-!  ### `set_plot` and configuration changes (C7)

`CrossFilter.set_plot` first recomputes the shared ranges
(`update_xy_ranges`), then builds the display tree (`make_plot`), and
only after a successful build assigns it to `self.plot`.  A Python
exception anywhere before the assignment leaves `self.plot` untouched.
The display builder is taken as a parameter covering every possible
`make_plot` outcome; the range computation is embedded from the source
(`make_xy_ranges` of the base and bar plugins). -/

/-- A shared axis range (`FactorRange`, `DataRange1d` or `Range1d`). -/
inductive RangeSpec where
  | factor (factors : List Value)
  | dataRange (lo hi : ℚ)
  | range1d (lo hi : ℚ)
deriving DecidableEq, Repr

/-- The published display tree (single plot, grid, or tabs). -/
inductive Display where
  | single
  | grid (rows : List ℕ)
  | tabs (n : ℕ)
deriving DecidableEq, Repr

/-- The `CrossFilter` state touched by `set_plot` and
`plot_attribute_change`. -/
structure AppState where
  x : String
  y : String
  agg : String
  plot_type : String
  columns : List ColDesc
  df : DataFrame
  x_range : Option RangeSpec
  y_range : Option RangeSpec
  plot : Option Display

/-- `x_vals.min()` (NaN on an empty column is not modelled; the values
play no role in the claims). -/
def listMinD (l : List ℚ) : ℚ := l.foldl min (l.headD 0)

/-- `x_vals.max()`. -/
def listMaxD (l : List ℚ) : ℚ := l.foldl max (l.headD 0)

/-- The `sum` / `mean` / `last` aggregation of a group. -/
def aggregate (agg : String) (vals : List ℚ) : ℚ :=
  if agg = "mean" then vals.sum / vals.length
  else if agg = "last" then vals.getLastD 0
  else vals.sum

/-- Modelled from the spec: `make_categorical_bar_source` /
`make_continuous_bar_source` from `crossfilter/plotting.py` are not
under `src/`; per §4.2 they "group by the categorical axis, aggregate
the other by sum/mean/last".  Group keys in pandas groupby order
(sorted unique). -/
def barGroups (df : DataFrame) (x y agg : String) : List (Value × ℚ) :=
  (uniqueSorted (colValues df x)).map (fun k =>
    (k, aggregate agg
      (((df : List Row).filter (fun r => rowGet r x == some k)).filterMap
        (fun r => rowRat r y))))

/-- `CrossFilterPlugin.make_xy_ranges`: a `FactorRange` over the sorted
unique values for a Discrete column, else a `DataRange1d` over the
observed min/max.  `col_meta[col]` raises `KeyError` for an unknown
column. -/
def make_xy_ranges (cf : AppState) : Except Err (RangeSpec × RangeSpec) :=
  match lookupDesc cf.columns cf.x with
  | none => Except.error Err.keyError
  | some xd =>
      match lookupDesc cf.columns cf.y with
      | none => Except.error Err.keyError
      | some yd =>
          let xr := if xd.type = "DiscreteColumn" then
              RangeSpec.factor (uniqueSorted (colValues cf.df cf.x))
            else
              RangeSpec.dataRange (listMinD (colRats cf.df cf.x))
                (listMaxD (colRats cf.df cf.x))
          let yr := if yd.type = "DiscreteColumn" then
              RangeSpec.factor (uniqueSorted (colValues cf.df cf.y))
            else
              RangeSpec.dataRange (listMinD (colRats cf.df cf.y))
                (listMaxD (colRats cf.df cf.y))
          Except.ok (xr, yr)

/-- `CrossBarPlugin.make_xy_ranges` with `bar_width = 0.7`: numeric
x range `[min - 0.7, max - 0.7]` when x is continuous, else a
`FactorRange` over the aggregated group keys; y range `[0, max(aggY)]`
(`np.max` of an empty aggregation raises `ValueError`). -/
def bar_make_xy_ranges (cf : AppState) :
    Except Err (RangeSpec × RangeSpec) :=
  match lookupDesc cf.columns cf.x with
  | none => Except.error Err.keyError
  | some xd =>
      let src := barGroups cf.df cf.x cf.y cf.agg
      let xr := if xd.type ≠ "DiscreteColumn" then
          RangeSpec.range1d (listMinD (colRats cf.df cf.x) - 7/10)
            (listMaxD (colRats cf.df cf.x) - 7/10)
        else RangeSpec.factor (src.map Prod.fst)
      if src.isEmpty then Except.error Err.valueError
      else Except.ok (xr, RangeSpec.range1d 0 (listMaxD (src.map Prod.snd)))

/-- `CrossFilter.update_xy_ranges`: dispatch `make_xy_ranges` through
`plot_map[plot_type]` and store the ranges; on an exception the ranges
are left untouched. -/
def update_xy_ranges (cf : AppState) : Except Err AppState :=
  match (if cf.plot_type = "bar" then bar_make_xy_ranges cf
         else make_xy_ranges cf) with
  | Except.error e => Except.error e
  | Except.ok (xr, yr) =>
      Except.ok { cf with x_range := some xr, y_range := some yr }

/-- `CrossFilter.set_plot`, given the outcome of `make_plot`: update the
ranges, build the plot, and only then assign `self.plot`.  The result is
the post-call state (with whatever mutations happened before a raise)
paired with the escaped exception, if any.  The trailing
`curdoc()._add_all()` touches no state of this model. -/
def set_plot (mkPlot : AppState → Except Err Display) (cf : AppState) :
    AppState × Option Err :=
  match update_xy_ranges cf with
  | Except.error e => (cf, some e)
  | Except.ok cf1 =>
      match mkPlot cf1 with
      | Except.error e => (cf1, some e)
      | Except.ok p => ({ cf1 with plot := some p }, none)

/-- `setattr(self, obj.name, new)` for the four selector names. -/
def setAttr (cf : AppState) (name value : String) : AppState :=
  if name = "plot_type" then { cf with plot_type := value }
  else if name = "x" then { cf with x := value }
  else if name = "y" then { cf with y := value }
  else if name = "agg" then { cf with agg := value }
  else cf

/-- `CrossFilter.plot_attribute_change`: store the changed attribute,
then rebuild via `set_plot`. -/
def plot_attribute_change (mkPlot : AppState → Except Err Display)
    (cf : AppState) (name value : String) : AppState × Option Err :=
  set_plot mkPlot (setAttr cf name value)

theorem update_xy_ranges_plot (cf cf3 : AppState)
    (h : update_xy_ranges cf = Except.ok cf3) : cf3.plot = cf.plot := by
  unfold update_xy_ranges at h
  cases hr : (if cf.plot_type = "bar" then bar_make_xy_ranges cf
      else make_xy_ranges cf) with
  | error e => rw [hr] at h; cases h
  | ok pr =>
      obtain ⟨xr, yr⟩ := pr
      rw [hr] at h
      dsimp only at h
      injection h with h2
      rw [← h2]

/-- C7: if a display rebuild triggered by a plot-configuration change
fails — in `update_xy_ranges` (for example because x or y names a column
that does not exist, raising `KeyError` in `make_xy_ranges`) or anywhere
in `make_plot`, whatever its behaviour — the controller's published
display (`self.plot`) retains the value it had before the failed
rebuild: the assignment `self.plot = plot` only runs after a fully
successful build, so no partial or new display tree is published on
error. -/
theorem c7_failed_rebuild_retains_plot
    (mkPlot : AppState → Except Err Display) (cf : AppState)
    (name value : String)
    (h : (plot_attribute_change mkPlot cf name value).2 ≠ none) :
    (plot_attribute_change mkPlot cf name value).1.plot = cf.plot := by
  have hattr : (setAttr cf name value).plot = cf.plot := by
    unfold setAttr
    split_ifs <;> rfl
  unfold plot_attribute_change set_plot at h ⊢
  cases hup : update_xy_ranges (setAttr cf name value) with
  | error e => exact hattr
  | ok cf3 =>
      have hp3 : cf3.plot = (setAttr cf name value).plot :=
        update_xy_ranges_plot _ _ hup
      rw [hup] at h
      dsimp only at h ⊢
      cases hmk : mkPlot cf3 with
      | error e => exact hp3.trans hattr
      | ok p =>
          rw [hmk] at h
          exact absurd rfl h

/-- Concrete state for the C7 witness: a valid two-column scatter
configuration with a published display. -/
def appC7 : AppState :=
  { x := "a", y := "b", agg := "sum", plot_type := "scatter",
    columns := [⟨"a", "ContinuousColumn"⟩, ⟨"b", "ContinuousColumn"⟩],
    df := [[("a", Value.num 1), ("b", Value.num 2)]],
    x_range := none, y_range := none, plot := some Display.single }

/-- A display builder that always succeeds, for the C7 witness: the
failure in the witness comes from the range recomputation alone. -/
def mkPlotC7 : AppState → Except Err Display :=
  fun _ => Except.ok Display.single

theorem c7_failed_rebuild_retains_plot_witness :
    (plot_attribute_change mkPlotC7 appC7 "x" "zzz").2 ≠ none ∧
    (plot_attribute_change mkPlotC7 appC7 "x" "zzz").1.plot =
      appC7.plot :=
  ⟨by decide,
   c7_failed_rebuild_retains_plot mkPlotC7 appC7 "x" "zzz" (by decide)⟩
